import Mathlib

/-!
# Settlement core of the payment hub: invoices, payments, asset addresses

A shallow embedding of `lib/service/invoices.go` and `lib/service/tahub.go`.

Conventions of the embedding:

* a Go `error` is identified by its message; `none` is the `nil` error, so
  `errors.New("")` is `some ""`, a non-nil error with an empty message;
* the ledger store, the payment network client and the asset network client are
  collaborators of the service: their answers are fields of `LndhubService`,
  and every call made to them is appended to the call log of the `World`;
* rows written through an open storage transaction stay pending until the
  transaction commits, rows written through `svc.DB` directly are stored at once;
* a Go pointer that is written through (`invoice *models.Invoice`) becomes an
  input record and an output record.
-/

namespace Tahub

/-! ## Go values -/

/-- A Go `byte`. -/
abbrev Byte := Fin 256

/-- A Go `error`: `none` is `nil`, `some msg` an error with message `msg`. -/
abbrev GoError := Option String

/-- The result of running a Go function that may panic. -/
inductive Run (α : Type) where
  | returned (a : α)
  | panicked (msg : String)
deriving DecidableEq, Repr

/-- Conversion of a `uint64` value to `int64` (two's complement). -/
def toInt64 (n : Nat) : Int :=
  if n % 2 ^ 64 < 2 ^ 63 then ((n % 2 ^ 64 : Nat) : Int) else ((n % 2 ^ 64 : Nat) : Int) - 2 ^ 64

/-! ## encoding/hex -/

/-- The table `hextable` of `encoding/hex`. -/
def hextable : List Char := "0123456789abcdef".toList

/-- One digit of `hextable`. -/
def hexDigit (n : Nat) : Char := hextable.getD n '0'

/-- `hex.EncodeToString`: two digits of `hextable` per byte, high nibble first. -/
def EncodeToString (src : List Byte) : String :=
  String.mk (src.flatMap fun v => [hexDigit (v.val >>> 4), hexDigit (v.val &&& 0x0f)])

/-! ## Records of `db/models` (the fields the service reads or writes) -/

structure Account where
  ID : Int
  UserID : Int
  Typ : String
deriving DecidableEq, Repr

structure TransactionEntry where
  ID : Int
  UserID : Int
  InvoiceID : Int
  CreditAccountID : Int
  DebitAccountID : Int
  Amount : Int
deriving DecidableEq, Repr

structure Invoice where
  ID : Int
  Typ : String
  UserID : Int
  Amount : Int
  Memo : String
  DescriptionHash : String
  PaymentRequest : String
  DestinationPubKey : String
  RHash : String
  Preimage : String
  AddIndex : Nat
  State : String
  SettledAt : Nat
deriving DecidableEq, Repr

structure Address where
  UserId : Nat
  AssetId : String
  Amt : Nat
  Addr : String
deriving DecidableEq, Repr

/-! ## Messages of the payment network (`lnrpc`) and the asset network (`taprpc`) -/

structure SendRequest where
  PaymentRequest : String
  Amt : Int
  FeeLimitPercent : Int
deriving DecidableEq, Repr

structure SendResponse where
  PaymentError : String
  PaymentPreimage : Option (List Byte)
deriving DecidableEq, Repr

/-- The getter `GetPaymentError`, which accepts a nil response. -/
def GetPaymentError : Option SendResponse → String
  | some r => r.PaymentError
  | none => ""

/-- The getter `GetPaymentPreimage`, which accepts a nil response. -/
def GetPaymentPreimage : Option SendResponse → Option (List Byte)
  | some r => r.PaymentPreimage
  | none => none

structure LnInvoice where
  Memo : String
  Value : Int
  RPreimage : List Byte
  Expiry : Int
deriving DecidableEq, Repr

structure AddInvoiceResponse where
  RHash : List Byte
  PaymentRequest : String
  AddIndex : Nat
deriving DecidableEq, Repr

structure NewAddrRequest where
  AssetId : List Byte
  Amt : Nat
deriving DecidableEq, Repr

structure NewAddrResponse where
  Encoded : String
deriving DecidableEq, Repr

structure GenesisInfo where
  Name : String
deriving DecidableEq, Repr

structure AssetBalance where
  AssetGenesis : GenesisInfo
  Balance : Nat
deriving DecidableEq, Repr

/-- The network parameters of `chaincfg`. -/
inductive Params where
  | MainNetParams
  | TestNet3Params
  | RegressionNetParams
  | SimNetParams
deriving DecidableEq, Repr

/-- A decoded payment request, `zpay32.Invoice`. `Destination` holds the
compressed serialisation of the destination key. -/
structure Zpay32Invoice where
  Destination : List Byte
  Description : Option String
  DescriptionHash : Option (List Byte)
  PaymentHash : Option (List Byte)
  MilliSat : Option Nat
deriving DecidableEq, Repr

/-! ## The store and the call log -/

/-- The committed rows of the ledger store. -/
structure DB where
  invoices : List Invoice
  entries : List TransactionEntry
  addresses : List Address
deriving DecidableEq, Repr

/-- A call to a collaborator. -/
inductive Call where
  | AccountFor (accountType : String) (userId : Int)
  | BeginTx
  | InsertEntry (entry : TransactionEntry)
  | Rollback
  | Commit
  | SendPaymentSync (req : SendRequest)
  | UpdateInvoice (invoice : Invoice)
  | InsertInvoice (invoice : Invoice)
  | AddInvoice (req : LnInvoice)
  | FindAddress (userId : Nat) (assetId : String) (amt : Nat)
  | NewAddress (req : NewAddrRequest)
  | CreateAddress (encoded : String) (userId : Nat) (assetId : String) (amt : Nat)
deriving DecidableEq, Repr

/-- The committed store together with the calls made so far, oldest first. -/
structure World where
  db : DB
  calls : List Call
deriving DecidableEq, Repr

/-- Append a call to the log. -/
def World.log (w : World) (c : Call) : World := { w with calls := w.calls ++ [c] }

/-- The collaborators of the service: what each call answers.
`InsertEntry` and `InsertInvoice` answer the row id the store assigns. -/
structure LndhubService where
  AccountFor : String → Int → Except String Account
  BeginTx : GoError
  InsertEntry : TransactionEntry → Except String Int
  Commit : GoError
  SendPaymentSync : SendRequest → Except String (Option SendResponse)
  UpdateInvoice : Invoice → GoError
  InsertInvoice : Invoice → Except String Int
  AddInvoice : LnInvoice → Except String AddInvoiceResponse
  GetIdentPubKeyHex : String
  /-- The clock, `time.Now()`. -/
  Now : Nat
  /-- The value of the `i`-th call `rand.Intn(n)`. -/
  randIntn : Nat → Nat → Nat
  /-- The call `zpay32.Decode`. -/
  zpay32Decode : List Byte → Params → Except String Zpay32Invoice
  FindAddress : DB → Nat → String → Nat → Option Address × GoError
  /-- The call `hex.DecodeString`. -/
  hexDecodeString : String → Except String (List Byte)
  NewAddress : World → NewAddrRequest → Except String NewAddrResponse
  /-- The store after the call, and what the call returns. -/
  CreateAddress : DB → String → Nat → String → Nat → DB × (Option Address × GoError)
  ListBalances : Except String (List AssetBalance)

/-- The store after an update `WherePK` of an invoice row: the row with the
record's id takes the record's values. -/
def DB.updateInvoice (db : DB) (invoice : Invoice) : DB :=
  { db with invoices := db.invoices.map fun row => if row.ID = invoice.ID then invoice else row }

/-- The store after the insert of an invoice row. -/
def DB.insertInvoice (db : DB) (invoice : Invoice) : DB :=
  { db with invoices := db.invoices ++ [invoice] }

/-- The store after a transaction holding the pending entry rows commits. -/
def DB.commitEntries (db : DB) (pending : List TransactionEntry) : DB :=
  { db with entries := db.entries ++ pending }

/-! ## invoices.go -/

/-- What a call of `PayInvoice` leaves behind: the returned pair, the invoice
record behind the pointer passed in, and the world. -/
structure PayResult where
  entry : Option TransactionEntry
  err : GoError
  invoice : Invoice
  world : World
deriving DecidableEq, Repr

/-- The function `PayInvoice` of invoices.go. -/
def PayInvoice (svc : LndhubService) (w : World) (invoice : Invoice) : PayResult :=
  let userId := invoice.UserID
  -- Get the user's current and outgoing account for the transaction entry
  let w := w.log (.AccountFor "current" userId)
  match svc.AccountFor "current" userId with
  | .error err => ⟨none, some err, invoice, w⟩
  | .ok debitAccount =>
  let w := w.log (.AccountFor "outgoing" userId)
  match svc.AccountFor "outgoing" userId with
  | .error err => ⟨none, some err, invoice, w⟩
  | .ok creditAccount =>
  let entry : TransactionEntry :=
    { ID := 0
      UserID := userId
      InvoiceID := invoice.ID
      CreditAccountID := creditAccount.ID
      DebitAccountID := debitAccount.ID
      Amount := invoice.Amount }
  -- Start a DB transaction
  let w := w.log .BeginTx
  match svc.BeginTx with
  | some err => ⟨some entry, some err, invoice, w⟩
  | none =>
  -- the insert goes through the transaction: the row is pending
  let w := w.log (.InsertEntry entry)
  match svc.InsertEntry entry with
  | .error err => ⟨some entry, some err, invoice, w.log .Rollback⟩
  | .ok id =>
  let entry := { entry with ID := id }
  let pending := [entry]
  let sendPaymentRequest : SendRequest :=
    { PaymentRequest := invoice.PaymentRequest
      Amt := invoice.Amount
      FeeLimitPercent := 2 }
  -- Execute the payment
  let w := w.log (.SendPaymentSync sendPaymentRequest)
  match svc.SendPaymentSync sendPaymentRequest with
  | .error err => ⟨some entry, some err, invoice, w.log .Rollback⟩
  | .ok sendPaymentResult =>
  -- If there was a payment error we rollback and return an error
  if GetPaymentError sendPaymentResult ≠ "" ∨ GetPaymentPreimage sendPaymentResult = none then
    ⟨some entry, some (GetPaymentError sendPaymentResult), invoice, w.log .Rollback⟩
  else
  -- The payment was successful: store the preimage and mark the invoice as settled
  let preimage := (GetPaymentPreimage sendPaymentResult).getD []
  let invoice :=
    { invoice with
      Preimage := EncodeToString preimage
      State := "settled"
      SettledAt := svc.Now }
  -- the update goes through svc.DB, not through the transaction
  let w := w.log (.UpdateInvoice invoice)
  match svc.UpdateInvoice invoice with
  | some err => ⟨some entry, some err, invoice, w.log .Rollback⟩
  | none =>
  let w := { w with db := w.db.updateInvoice invoice }
  -- Commit the DB transaction
  let w := w.log .Commit
  match svc.Commit with
  | some err => ⟨some entry, some err, invoice, w⟩
  | none => ⟨some entry, none, invoice, { w with db := w.db.commitEntries pending }⟩


/-- The conversion `MilliSatoshi.ToSatoshis` followed by `int64(...)`: the
`uint64` amount divided by 1000, as a signed 64-bit value. -/
def ToSatoshis (msat : Nat) : Int := toInt64 (msat % 2 ^ 64 / 1000)

/-- The function `AddOutgoingInvoice` of invoices.go. Dereferencing the nil
`Description` of a request that carries none panics. -/
def AddOutgoingInvoice (svc : LndhubService) (w : World) (userID : Int) (paymentRequest : String)
    (decodedInvoice : Zpay32Invoice) : Run (Option Invoice × GoError × World) :=
  -- Initialize new DB invoice
  let destinationPubkey := EncodeToString decodedInvoice.Destination
  match decodedInvoice.Description with
  | none => .panicked "runtime error: invalid memory address or nil pointer dereference"
  | some description =>
  let invoice : Invoice :=
    { ID := 0
      Typ := "outgoing"
      UserID := userID
      Amount := 0
      Memo := description
      DescriptionHash := ""
      PaymentRequest := paymentRequest
      DestinationPubKey := destinationPubkey
      RHash := ""
      Preimage := ""
      AddIndex := 0
      State := "initialized"
      SettledAt := 0 }
  let invoice :=
    match decodedInvoice.DescriptionHash with
    | some dh => { invoice with DescriptionHash := EncodeToString dh }
    | none => invoice
  let invoice :=
    match decodedInvoice.PaymentHash with
    | some ph => { invoice with RHash := EncodeToString ph }
    | none => invoice
  let invoice :=
    match decodedInvoice.MilliSat with
    | some msat => { invoice with Amount := ToSatoshis msat }
    | none => invoice
  -- Save invoice
  let w := w.log (.InsertInvoice invoice)
  match svc.InsertInvoice invoice with
  | .error err => .returned (none, some err, w)
  | .ok id =>
    let invoice := { invoice with ID := id }
    .returned (some invoice, none, { w with db := w.db.insertInvoice invoice })

/-- The bytes of an ASCII string literal. -/
def asciiBytes (s : String) : List Byte := s.toList.map fun c => Fin.ofNat c.toNat

/-- The constant `hexBytes`, `random.Hex`. -/
def hexBytes : List Byte := asciiBytes "0123456789abcdef"

/-- The function `makePreimageHex`: 32 bytes drawn from `hexBytes`. -/
def makePreimageHex (svc : LndhubService) : List Byte :=
  (List.range 32).map fun i => hexBytes.getD (svc.randIntn i hexBytes.length % hexBytes.length) 0

/-- The function `AddIncomingInvoice` of invoices.go. -/
def AddIncomingInvoice (svc : LndhubService) (w : World) (userID : Int) (amount : Int)
    (memo descriptionHash : String) : Option Invoice × GoError × World :=
  -- Initialize new DB invoice
  let invoice : Invoice :=
    { ID := 0
      Typ := "incoming"
      UserID := userID
      Amount := amount
      Memo := memo
      DescriptionHash := descriptionHash
      PaymentRequest := ""
      DestinationPubKey := ""
      RHash := ""
      Preimage := ""
      AddIndex := 0
      State := "initialized"
      SettledAt := 0 }
  -- Save invoice early to have a record in case the LN call fails
  let w := w.log (.InsertInvoice invoice)
  match svc.InsertInvoice invoice with
  | .error err => (none, some err, w)
  | .ok id =>
  let invoice := { invoice with ID := id }
  let w := { w with db := w.db.insertInvoice invoice }
  -- Initialize lnrpc invoice
  let lnInvoice : LnInvoice :=
    { Memo := memo
      Value := amount
      RPreimage := makePreimageHex svc
      Expiry := 3600 * 24 }
  -- Call LND
  let w := w.log (.AddInvoice lnInvoice)
  match svc.AddInvoice lnInvoice with
  | .error err => (none, some err, w)
  | .ok lnInvoiceResult =>
  -- Update the DB invoice with the data from the LND gRPC call
  let invoice :=
    { invoice with
      PaymentRequest := lnInvoiceResult.PaymentRequest
      RHash := EncodeToString lnInvoiceResult.RHash
      AddIndex := lnInvoiceResult.AddIndex
      DestinationPubKey := svc.GetIdentPubKeyHex
      State := "created" }
  let w := w.log (.UpdateInvoice invoice)
  match svc.UpdateInvoice invoice with
  | some err => (none, some err, w)
  | none => (some invoice, none, { w with db := w.db.updateInvoice invoice })

/-- The function `strings.HasPrefix` on byte strings. -/
def HasPrefix (s pre : List Byte) : Bool :=
  decide (pre.length ≤ s.length) && (s.take pre.length == pre)

/-- The function `ChainFromCurrency` of invoices.go. -/
def ChainFromCurrency (currency : List Byte) : Params :=
  if HasPrefix currency (asciiBytes "bcrt") then .RegressionNetParams
  else if HasPrefix currency (asciiBytes "tb") then .TestNet3Params
  else if HasPrefix currency (asciiBytes "sb") then .SimNetParams
  else .MainNetParams

/-- The function `DecodePaymentRequest` of invoices.go. The slice expression
`bolt11[2:]` panics when the text is shorter than two bytes. -/
def DecodePaymentRequest (svc : LndhubService) (bolt11 : List Byte) :
    Run (Except String Zpay32Invoice) :=
  if 2 ≤ bolt11.length then
    .returned (svc.zpay32Decode bolt11 (ChainFromCurrency (bolt11.drop 2)))
  else
    .panicked ("runtime error: slice bounds out of range [2:" ++ toString bolt11.length ++ "]")

/-! ## tahub.go -/

/-- Lookup in the Go map `aggBalances`, kept as a list of keys with their values. -/
def mapGet : List (String × Nat) → String → Option Nat
  | [], _ => none
  | (k, v) :: m, name => if k = name then some v else mapGet m name

/-- Assignment `aggBalances[name] = v`. -/
def mapSet : List (String × Nat) → String → Nat → List (String × Nat)
  | [], name, v => [(name, v)]
  | (k, v0) :: m, name, v => if k = name then (k, v) :: m else (k, v0) :: mapSet m name v

/-- The body of the first loop of `BalanceByAsset`: the balance is added, in
`uint64`, to the amount already held under its asset name, or stored under a new key. -/
def aggStep (aggBalances : List (String × Nat)) (balance : AssetBalance) : List (String × Nat) :=
  match mapGet aggBalances balance.AssetGenesis.Name with
  | some bal => mapSet aggBalances balance.AssetGenesis.Name ((bal + balance.Balance) % 2 ^ 64)
  | none => mapSet aggBalances balance.AssetGenesis.Name balance.Balance

/-- The first loop of `BalanceByAsset`, over the balances in the order the loop
visits them. -/
def aggregate (balances : List AssetBalance) : List (String × Nat) :=
  balances.foldl aggStep []

/-- The text `fmt.Sprintf("%s %d,", asset, balance)`. -/
def balanceItem (p : String × Nat) : String := p.1 ++ " " ++ toString p.2 ++ ","

/-- The function `BalanceByAsset` of tahub.go. `rangeOrder` is the order in
which the runtime ranges over the map `aggBalances`. -/
def BalanceByAsset (svc : LndhubService)
    (rangeOrder : List (String × Nat) → List (String × Nat)) : String × Bool :=
  match svc.ListBalances with
  | .error _ => ("error: failed to fetch balances.", false)
  | .ok balances =>
    let aggBalances := aggregate balances
    -- check for no len
    if aggBalances.length = 0 then ("balance: 0", false)
    else
      ((rangeOrder aggBalances).foldl (fun okSuccessMsg p => okSuccessMsg ++ balanceItem p)
        "balances: ", true)

/-- The function `FetchOrCreateAssetAddr` of tahub.go. -/
def FetchOrCreateAssetAddr (svc : LndhubService) (w : World) (userId : Nat) (assetId : String)
    (amt : Nat) : (String × GoError) × World :=
  let w := w.log (.FindAddress userId assetId amt)
  match svc.FindAddress w.db userId assetId amt with
  -- check db error - the nil check on addr indicates the error was on not found
  | (some _, some err) => (("error: failed to check on existing address.", some err), w)
  -- return existing address early
  | (some addr, none) => (("address: " ++ addr.Addr, none), w)
  | (none, _) =>
  -- decode assetId for tapd request
  match svc.hexDecodeString assetId with
  | .error err => (("error: failed to parse assetID.", some err), w)
  | .ok decoded =>
  -- create new address
  let req : NewAddrRequest := { AssetId := decoded, Amt := amt }
  let w0 := w
  let w := w.log (.NewAddress req)
  match svc.NewAddress w0 req with
  | .error err => (("error: failed to create receive address.", some err), w)
  | .ok newAddr =>
  -- save new address to db
  let w := w.log (.CreateAddress newAddr.Encoded userId assetId amt)
  match svc.CreateAddress w.db newAddr.Encoded userId assetId amt with
  | (db, (_, some err)) => (("error: failed to save receive address.", some err), { w with db := db })
  | (db, (_, none)) => (("address: " ++ newAddr.Encoded, none), { w with db := db })


/-! ## Reading the store and the call log -/

/-- The committed entry rows that reference an invoice. -/
def entriesFor (db : DB) (invoiceId : Int) : List TransactionEntry :=
  db.entries.filter fun e => e.InvoiceID = invoiceId

/-- The stored invoice rows with a given id. -/
def invoiceRows (db : DB) (invoiceId : Int) : List Invoice :=
  db.invoices.filter fun row => row.ID = invoiceId

/-- Whether a call is a `SendPaymentSync`. -/
def Call.isSendPaymentSync : Call → Bool
  | .SendPaymentSync _ => true
  | _ => false

/-- Whether a call is a `NewAddress`. -/
def Call.isNewAddress : Call → Bool
  | .NewAddress _ => true
  | _ => false

/-- Whether a call is a `CreateAddress`. -/
def Call.isCreateAddress : Call → Bool
  | .CreateAddress _ _ _ _ => true
  | _ => false

/-- The calls made between two worlds, oldest first. -/
def newCalls (before after : World) : List Call := after.calls.drop before.calls.length

/-- The entry `PayInvoice` builds for an invoice and the two accounts. -/
def entryFor (invoice : Invoice) (debitAccount creditAccount : Account) : TransactionEntry :=
  { ID := 0
    UserID := invoice.UserID
    InvoiceID := invoice.ID
    CreditAccountID := creditAccount.ID
    DebitAccountID := debitAccount.ID
    Amount := invoice.Amount }

/-- The request `PayInvoice` sends for an invoice. -/
def sendRequestFor (invoice : Invoice) : SendRequest :=
  { PaymentRequest := invoice.PaymentRequest, Amt := invoice.Amount, FeeLimitPercent := 2 }

/-- The invoice record after a payment that returned `preimage` at time `now`. -/
def settledWith (invoice : Invoice) (preimage : List Byte) (now : Nat) : Invoice :=
  { invoice with Preimage := EncodeToString preimage, State := "settled", SettledAt := now }

/-- The row `AddIncomingInvoice` inserts first. -/
def incomingInvoice (userID amount : Int) (memo descriptionHash : String) : Invoice :=
  { ID := 0
    Typ := "incoming"
    UserID := userID
    Amount := amount
    Memo := memo
    DescriptionHash := descriptionHash
    PaymentRequest := ""
    DestinationPubKey := ""
    RHash := ""
    Preimage := ""
    AddIndex := 0
    State := "initialized"
    SettledAt := 0 }

/-- The request `AddIncomingInvoice` sends to the payment network. -/
def lnInvoiceFor (svc : LndhubService) (amount : Int) (memo : String) : LnInvoice :=
  { Memo := memo, Value := amount, RPreimage := makePreimageHex svc, Expiry := 3600 * 24 }

/-- The invoice record after the payment network answered `res`. -/
def createdWith (svc : LndhubService) (invoice : Invoice) (res : AddInvoiceResponse) : Invoice :=
  { invoice with
    PaymentRequest := res.PaymentRequest
    RHash := EncodeToString res.RHash
    AddIndex := res.AddIndex
    DestinationPubKey := svc.GetIdentPubKeyHex
    State := "created" }

/-- The invoice `AddOutgoingInvoice` hands to the store for a request that
carries the description `description`. -/
def outgoingInvoice (userID : Int) (paymentRequest : String) (decodedInvoice : Zpay32Invoice)
    (description : String) : Invoice :=
  { ID := 0
    Typ := "outgoing"
    UserID := userID
    Amount := match decodedInvoice.MilliSat with
      | some msat => ToSatoshis msat
      | none => 0
    Memo := description
    DescriptionHash := match decodedInvoice.DescriptionHash with
      | some dh => EncodeToString dh
      | none => ""
    PaymentRequest := paymentRequest
    DestinationPubKey := EncodeToString decodedInvoice.Destination
    RHash := match decodedInvoice.PaymentHash with
      | some ph => EncodeToString ph
      | none => ""
    Preimage := ""
    AddIndex := 0
    State := "initialized"
    SettledAt := 0 }

/-- The items of a listing, one after the other. -/
def listing : List (String × Nat) → String
  | [] => ""
  | p :: rest => balanceItem p ++ listing rest

/-- The exact sum of the balances that carry an asset name. -/
def nameTotal (name : String) (balances : List AssetBalance) : Nat :=
  ((balances.filter fun b => b.AssetGenesis.Name = name).map fun b => b.Balance).sum

/-- The exact sum of all balances. -/
def balanceTotal (balances : List AssetBalance) : Nat := (balances.map fun b => b.Balance).sum

/-- The law of a store that keeps addresses: once `CreateAddress` has stored an
address, without error, for a key whose lookup reported nothing, `FindAddress`
returns a row with that address for the same key. -/
def KeepsAddresses (svc : LndhubService) : Prop :=
  ∀ (db db1 : DB) (encoded : String) (userId : Nat) (assetId : String) (amt : Nat)
    (created : Option Address),
    (svc.FindAddress db userId assetId amt).1 = none →
    svc.CreateAddress db encoded userId assetId amt = (db1, (created, none)) →
    ∃ row, svc.FindAddress db1 userId assetId amt = (some row, none) ∧ row.Addr = encoded

/-- The error `sql.ErrNoRows`, with which the store reports that no row matched. -/
def ErrNoRows : String := "sql: no rows in result set"

/-- Modelled from the spec: the lookup `FindAddress` of the Address row for
(user, asset identifier, amount), which is not among the source files, over a
store that keeps its rows in a list. A missing row is reported with a nil
address and an error, the convention the comment in `FetchOrCreateAssetAddr`
relies on. -/
def listFindAddress (db : DB) (userId : Nat) (assetId : String) (amt : Nat) :
    Option Address × GoError :=
  match db.addresses.find? fun a => a.UserId = userId ∧ a.AssetId = assetId ∧ a.Amt = amt with
  | some a => (some a, none)
  | none => (none, some ErrNoRows)

/-- Modelled from the spec: the insert `CreateAddress` of a new Address row,
which is not among the source files, over a store that keeps its rows in a list. -/
def listCreateAddress (db : DB) (encoded : String) (userId : Nat) (assetId : String)
    (amt : Nat) : DB × (Option Address × GoError) :=
  let a : Address := { UserId := userId, AssetId := assetId, Amt := amt, Addr := encoded }
  ({ db with addresses := db.addresses ++ [a] }, (some a, none))

/-! ## Scenarios -/

namespace Scenario

/-- An outgoing invoice of 5000 for user 7, row 42, not yet paid. -/
def invoice : Invoice :=
  { ID := 42
    Typ := "outgoing"
    UserID := 7
    Amount := 5000
    Memo := "coffee"
    DescriptionHash := ""
    PaymentRequest := "lnbc50u1coffee"
    DestinationPubKey := "02aa"
    RHash := "00ff"
    Preimage := ""
    AddIndex := 0
    State := "initialized"
    SettledAt := 0 }

/-- A store that holds the invoice and no entry. -/
def world : World := { db := { invoices := [invoice], entries := [], addresses := [] }, calls := [] }

/-- Collaborators that all succeed; the network returns the preimage `aa aa`. -/
def svc : LndhubService :=
  { AccountFor := fun t u => .ok { ID := if t = "current" then 11 else 12, UserID := u, Typ := t }
    BeginTx := none
    InsertEntry := fun _ => .ok 1
    Commit := none
    SendPaymentSync := fun _ => .ok (some { PaymentError := "", PaymentPreimage := some [0xAA, 0xAA] })
    UpdateInvoice := fun _ => none
    InsertInvoice := fun _ => .ok 43
    AddInvoice := fun _ => .ok { RHash := [0x01, 0xFF], PaymentRequest := "lnbc1", AddIndex := 9 }
    GetIdentPubKeyHex := "03bb"
    Now := 1700000000
    randIntn := fun i _ => i
    zpay32Decode := fun _ _ => .error "invalid bech32 string"
    FindAddress := listFindAddress
    hexDecodeString := fun s =>
      if s = "deadbeef" then .ok [0xDE, 0xAD, 0xBE, 0xEF] else .error "encoding/hex: invalid byte"
    NewAddress := fun _ _ => .ok { Encoded := "taprt1qqqs" }
    CreateAddress := listCreateAddress
    ListBalances := .ok [] }

/-- The same collaborators, but the commit of the transaction fails. -/
def commitFails : LndhubService := { svc with Commit := some "driver: bad connection" }

/-- The same collaborators, but the update of the invoice row fails. -/
def updateFails : LndhubService := { svc with UpdateInvoice := fun _ => some "driver: bad connection" }

/-- The same collaborators, but the network returns no preimage and no payment error. -/
def noPreimage : LndhubService :=
  { svc with SendPaymentSync := fun _ => .ok (some { PaymentError := "", PaymentPreimage := none }) }

/-- A store that already holds an address of user 3 for 100 units of `deadbeef`. -/
def worldWithAddress : World :=
  { db :=
      { invoices := []
        entries := []
        addresses := [{ UserId := 3, AssetId := "deadbeef", Amt := 100, Addr := "taprt1old" }] }
    calls := [] }

/-- The same collaborators, but the lookup of an address fails in the store. -/
def lookupFails : LndhubService :=
  { svc with
    FindAddress := fun _ userId assetId amt =>
      (some { UserId := userId, AssetId := assetId, Amt := amt, Addr := "" },
        some "driver: bad connection") }

/-- The same collaborators, but the lookup of an address fails in the store and
returns the error with a nil address. -/
def lookupBroken : LndhubService :=
  { svc with FindAddress := fun _ _ _ _ => (none, some "driver: bad connection") }

/-- Three balances, two of them under the name USDT, whose sum passes `2 ^ 64`. -/
def balances : List AssetBalance :=
  [{ AssetGenesis := { Name := "USDT" }, Balance := 5 },
   { AssetGenesis := { Name := "BTC" }, Balance := 7 },
   { AssetGenesis := { Name := "USDT" }, Balance := 2 ^ 64 - 1 }]

/-- The same collaborators, with the asset network returning `balances`. -/
def withBalances : LndhubService := { svc with ListBalances := .ok balances }

/-- The same collaborators, but the payment network cannot be reached. -/
def addInvoiceFails : LndhubService :=
  { svc with AddInvoice := fun _ => .error "rpc error: code = Unavailable" }

/-- The same collaborators, but the store rejects the entry. -/
def insertRejected : LndhubService :=
  { svc with InsertEntry := fun _ => .error "check_not_over_spend violated" }

end Scenario

/-! ## Theorems: encoding/hex -/

theorem hexDigit_mem (n : Nat) (h : n < 16) : hexDigit n ∈ "0123456789abcdef".toList := by
  interval_cases n <;> decide

theorem EncodeToString_length (src : List Byte) : (EncodeToString src).length = 2 * src.length := by
  induction src with
  | nil => rfl
  | cons v t ih =>
    simp only [EncodeToString, String.length, List.flatMap_cons, List.length_append,
      List.length_cons, List.length_nil] at ih ⊢
    omega

theorem EncodeToString_lowercase (src : List Byte) :
    ∀ c ∈ (EncodeToString src).toList, c ∈ "0123456789abcdef".toList := by
  intro c hc
  have hc : c ∈ src.flatMap fun v => [hexDigit (v.val >>> 4), hexDigit (v.val &&& 0x0f)] := hc
  rw [List.mem_flatMap] at hc
  obtain ⟨v, -, hv⟩ := hc
  have h1 : v.val >>> 4 < 16 := by
    have := v.isLt
    rw [Nat.shiftRight_eq_div_pow]; omega
  have h2 : v.val &&& 0x0f < 16 := by
    have : v.val &&& 0x0f ≤ 0x0f := Nat.and_le_right
    omega
  simp only [List.mem_cons, List.mem_singleton, List.not_mem_nil, or_false] at hv
  rcases hv with rfl | rfl
  · exact hexDigit_mem _ h1
  · exact hexDigit_mem _ h2

/-! ## Theorems: the call log -/

theorem newCalls_append (w : World) (db : DB) (cs : List Call) :
    newCalls w { db := db, calls := w.calls ++ cs } = cs := by
  simp [newCalls]

/-! ## Theorems: PayInvoice -/

/-- C1: when both account lookups, the begin of the transaction, the entry
insert, the external send (non-nil preimage, empty payment error), the invoice
update and the commit succeed, `PayInvoice` returns a nil error and the entry
with the id the store assigned, which references the invoice, carries its
amount, debits the current account and credits the outgoing account; exactly
that one entry is added to the committed entries; the invoice record and every
stored row of the invoice are settled with the lowercase hex of the preimage. -/
theorem PayInvoice_success (svc : LndhubService) (w : World) (invoice : Invoice)
    (debitAccount creditAccount : Account) (id : Int) (resp : SendResponse)
    (preimage : List Byte)
    (hdebit : svc.AccountFor "current" invoice.UserID = .ok debitAccount)
    (hcredit : svc.AccountFor "outgoing" invoice.UserID = .ok creditAccount)
    (hbegin : svc.BeginTx = none)
    (hinsert : svc.InsertEntry (entryFor invoice debitAccount creditAccount) = .ok id)
    (hsend : svc.SendPaymentSync (sendRequestFor invoice) = .ok (some resp))
    (hpreimage : resp.PaymentPreimage = some preimage)
    (hnoerror : resp.PaymentError = "")
    (hupdate : svc.UpdateInvoice (settledWith invoice preimage svc.Now) = none)
    (hcommit : svc.Commit = none) :
    (PayInvoice svc w invoice).err = none ∧
    (∃ entry, (PayInvoice svc w invoice).entry = some entry ∧
      entry.InvoiceID = invoice.ID ∧ entry.Amount = invoice.Amount ∧
      entry.UserID = invoice.UserID ∧
      entry.DebitAccountID = debitAccount.ID ∧ entry.CreditAccountID = creditAccount.ID ∧
      (PayInvoice svc w invoice).world.db.entries = w.db.entries ++ [entry] ∧
      entriesFor (PayInvoice svc w invoice).world.db invoice.ID
        = entriesFor w.db invoice.ID ++ [entry]) ∧
    (PayInvoice svc w invoice).invoice.State = "settled" ∧
    (PayInvoice svc w invoice).invoice.Preimage = EncodeToString preimage ∧
    (EncodeToString preimage).length = 2 * preimage.length ∧
    (∀ c ∈ (EncodeToString preimage).toList, c ∈ "0123456789abcdef".toList) ∧
    (∀ row ∈ invoiceRows (PayInvoice svc w invoice).world.db invoice.ID,
      row.State = "settled" ∧ row.Preimage = EncodeToString preimage) ∧
    (invoiceRows (PayInvoice svc w invoice).world.db invoice.ID).length
      = (invoiceRows w.db invoice.ID).length := by
  have hrun : PayInvoice svc w invoice =
      ⟨some { entryFor invoice debitAccount creditAccount with ID := id }, none,
        settledWith invoice preimage svc.Now,
        { db := ((w.db.updateInvoice (settledWith invoice preimage svc.Now)).commitEntries
            [{ entryFor invoice debitAccount creditAccount with ID := id }])
          calls := w.calls ++ [.AccountFor "current" invoice.UserID,
            .AccountFor "outgoing" invoice.UserID, .BeginTx,
            .InsertEntry (entryFor invoice debitAccount creditAccount),
            .SendPaymentSync (sendRequestFor invoice),
            .UpdateInvoice (settledWith invoice preimage svc.Now), .Commit] }⟩ := by
    simp only [entryFor, sendRequestFor, settledWith] at hinsert hsend hupdate
    simp [PayInvoice, hdebit, hcredit, hbegin, hinsert, hsend, hpreimage, hnoerror, hupdate,
      hcommit, World.log, GetPaymentError, GetPaymentPreimage, entryFor, sendRequestFor,
      settledWith]
  rw [hrun]
  refine ⟨rfl, ⟨_, rfl, rfl, rfl, rfl, rfl, rfl, rfl, ?_⟩, rfl, rfl,
    EncodeToString_length preimage, EncodeToString_lowercase preimage, ?_, ?_⟩
  · simp [entriesFor, DB.commitEntries, DB.updateInvoice, entryFor]
  · intro row hrow
    simp only [invoiceRows, DB.commitEntries, DB.updateInvoice, List.mem_filter, List.mem_map,
      decide_eq_true_eq] at hrow
    obtain ⟨⟨row0, -, hrow0⟩, hid⟩ := hrow
    by_cases h0 : row0.ID = (settledWith invoice preimage svc.Now).ID
    · rw [if_pos h0] at hrow0
      subst hrow0
      exact ⟨rfl, rfl⟩
    · rw [if_neg h0] at hrow0
      subst hrow0
      exact absurd hid h0
  · simp only [invoiceRows, DB.commitEntries, DB.updateInvoice]
    induction w.db.invoices with
    | nil => rfl
    | cons row0 rest ih =>
      by_cases h0 : row0.ID = invoice.ID
      · simp [List.filter_cons, settledWith, h0] at ih ⊢
        exact ih
      · simp [List.filter_cons, settledWith, h0] at ih ⊢
        exact ih


/-- Witness of C1: the scenario of the specification, an invoice of 5000 paid
with the preimage `aa aa`. -/
theorem PayInvoice_success_witness :
    (PayInvoice Scenario.svc Scenario.world Scenario.invoice).err = none ∧
    (PayInvoice Scenario.svc Scenario.world Scenario.invoice).invoice.State = "settled" ∧
    (PayInvoice Scenario.svc Scenario.world Scenario.invoice).invoice.Preimage
      = EncodeToString [0xAA, 0xAA] ∧
    EncodeToString [0xAA, 0xAA] = "aaaa" :=
  have h := PayInvoice_success Scenario.svc Scenario.world Scenario.invoice
    ⟨11, 7, "current"⟩ ⟨12, 7, "outgoing"⟩ 1 ⟨"", some [0xAA, 0xAA]⟩ [0xAA, 0xAA]
    rfl rfl rfl rfl rfl rfl rfl rfl rfl
  ⟨h.1, h.2.2.1, h.2.2.2.1, by decide⟩


/-- The run of `PayInvoice` in which the store rejects the entry. -/
theorem PayInvoice_run_insert_rejected (svc : LndhubService) (w : World) (invoice : Invoice)
    (debitAccount creditAccount : Account) (err : String)
    (hdebit : svc.AccountFor "current" invoice.UserID = .ok debitAccount)
    (hcredit : svc.AccountFor "outgoing" invoice.UserID = .ok creditAccount)
    (hbegin : svc.BeginTx = none)
    (hinsert : svc.InsertEntry (entryFor invoice debitAccount creditAccount) = .error err) :
    PayInvoice svc w invoice =
      ⟨some (entryFor invoice debitAccount creditAccount), some err, invoice,
        { db := w.db
          calls := w.calls ++ [.AccountFor "current" invoice.UserID,
            .AccountFor "outgoing" invoice.UserID, .BeginTx,
            .InsertEntry (entryFor invoice debitAccount creditAccount), .Rollback] }⟩ := by
  simp only [entryFor] at hinsert
  simp [PayInvoice, hdebit, hcredit, hbegin, hinsert, World.log, entryFor]

/-- The run of `PayInvoice` in which the send returns without a transport error
but with a payment error or without a preimage. -/
theorem PayInvoice_run_payment_failed (svc : LndhubService) (w : World) (invoice : Invoice)
    (debitAccount creditAccount : Account) (id : Int) (resp : Option SendResponse)
    (hdebit : svc.AccountFor "current" invoice.UserID = .ok debitAccount)
    (hcredit : svc.AccountFor "outgoing" invoice.UserID = .ok creditAccount)
    (hbegin : svc.BeginTx = none)
    (hinsert : svc.InsertEntry (entryFor invoice debitAccount creditAccount) = .ok id)
    (hsend : svc.SendPaymentSync (sendRequestFor invoice) = .ok resp)
    (hfailed : GetPaymentError resp ≠ "" ∨ GetPaymentPreimage resp = none) :
    PayInvoice svc w invoice =
      ⟨some { entryFor invoice debitAccount creditAccount with ID := id },
        some (GetPaymentError resp), invoice,
        { db := w.db
          calls := w.calls ++ [.AccountFor "current" invoice.UserID,
            .AccountFor "outgoing" invoice.UserID, .BeginTx,
            .InsertEntry (entryFor invoice debitAccount creditAccount),
            .SendPaymentSync (sendRequestFor invoice), .Rollback] }⟩ := by
  simp only [entryFor, sendRequestFor] at hinsert hsend
  simp [PayInvoice, hdebit, hcredit, hbegin, hinsert, hsend, hfailed, World.log, entryFor,
    sendRequestFor]

/-- C3: when the send returns without a transport error but reports a
payment error or returns no preimage, `PayInvoice` returns a non-nil error whose
message is the payment error (the empty message when only the preimage is
missing), rolls back and never commits: the store is the store from before the
call, so the entries referencing the invoice are those from before (none when
none did), and the invoice record, with its state and preimage, is unchanged. -/
theorem PayInvoice_payment_failed (svc : LndhubService) (w : World) (invoice : Invoice)
    (debitAccount creditAccount : Account) (id : Int) (resp : Option SendResponse)
    (hdebit : svc.AccountFor "current" invoice.UserID = .ok debitAccount)
    (hcredit : svc.AccountFor "outgoing" invoice.UserID = .ok creditAccount)
    (hbegin : svc.BeginTx = none)
    (hinsert : svc.InsertEntry (entryFor invoice debitAccount creditAccount) = .ok id)
    (hsend : svc.SendPaymentSync (sendRequestFor invoice) = .ok resp)
    (hfailed : GetPaymentError resp ≠ "" ∨ GetPaymentPreimage resp = none) :
    (PayInvoice svc w invoice).err = some (GetPaymentError resp) ∧
    (PayInvoice svc w invoice).err ≠ none ∧
    (PayInvoice svc w invoice).world.db = w.db ∧
    entriesFor (PayInvoice svc w invoice).world.db invoice.ID = entriesFor w.db invoice.ID ∧
    (entriesFor w.db invoice.ID = [] →
      entriesFor (PayInvoice svc w invoice).world.db invoice.ID = []) ∧
    (PayInvoice svc w invoice).invoice = invoice ∧
    (PayInvoice svc w invoice).invoice.State = invoice.State ∧
    (PayInvoice svc w invoice).invoice.Preimage = invoice.Preimage ∧
    invoiceRows (PayInvoice svc w invoice).world.db invoice.ID = invoiceRows w.db invoice.ID ∧
    (newCalls w (PayInvoice svc w invoice).world).getLast? = some .Rollback ∧
    Call.Commit ∉ newCalls w (PayInvoice svc w invoice).world := by
  rw [PayInvoice_run_payment_failed svc w invoice debitAccount creditAccount id resp hdebit
    hcredit hbegin hinsert hsend hfailed]
  refine ⟨rfl, by simp, rfl, rfl, fun h => h, rfl, rfl, rfl, rfl, ?_, ?_⟩ <;> simp [newCalls]

/-- Witness of C3: the network returns neither a preimage nor a payment error;
the error returned is non-nil with an empty message. -/
theorem PayInvoice_payment_failed_witness :
    (PayInvoice Scenario.noPreimage Scenario.world Scenario.invoice).err = some "" ∧
    (PayInvoice Scenario.noPreimage Scenario.world Scenario.invoice).world.db
      = Scenario.world.db ∧
    entriesFor (PayInvoice Scenario.noPreimage Scenario.world Scenario.invoice).world.db 42
      = [] :=
  have h := PayInvoice_payment_failed Scenario.noPreimage Scenario.world Scenario.invoice
    ⟨11, 7, "current"⟩ ⟨12, 7, "outgoing"⟩ 1 (some ⟨"", none⟩) rfl rfl rfl rfl rfl (Or.inr rfl)
  ⟨h.1, h.2.2.1, h.2.2.2.2.1 rfl⟩

/-- C4: when the store rejects the insert of the entry, `PayInvoice` returns
the store's error, rolls back, leaves the store and the invoice unchanged and
makes no `SendPaymentSync` call; and in every run, a `SendPaymentSync` call is
made only after the store accepted the entry. -/
theorem PayInvoice_insert_rejected (svc : LndhubService) (w : World) (invoice : Invoice) :
    (∀ (debitAccount creditAccount : Account) (err : String),
      svc.AccountFor "current" invoice.UserID = .ok debitAccount →
      svc.AccountFor "outgoing" invoice.UserID = .ok creditAccount →
      svc.BeginTx = none →
      svc.InsertEntry (entryFor invoice debitAccount creditAccount) = .error err →
        (PayInvoice svc w invoice).err = some err ∧
        (PayInvoice svc w invoice).world.db = w.db ∧
        entriesFor (PayInvoice svc w invoice).world.db invoice.ID = entriesFor w.db invoice.ID ∧
        (PayInvoice svc w invoice).invoice = invoice ∧
        newCalls w (PayInvoice svc w invoice).world
          = [.AccountFor "current" invoice.UserID, .AccountFor "outgoing" invoice.UserID,
              .BeginTx, .InsertEntry (entryFor invoice debitAccount creditAccount), .Rollback] ∧
        (∀ c ∈ newCalls w (PayInvoice svc w invoice).world, c.isSendPaymentSync = false)) ∧
    ((∃ c ∈ newCalls w (PayInvoice svc w invoice).world, c.isSendPaymentSync = true) →
      ∃ (debitAccount creditAccount : Account) (id : Int) (rest : List Call),
        svc.AccountFor "current" invoice.UserID = .ok debitAccount ∧
        svc.AccountFor "outgoing" invoice.UserID = .ok creditAccount ∧
        svc.InsertEntry (entryFor invoice debitAccount creditAccount) = .ok id ∧
        newCalls w (PayInvoice svc w invoice).world
          = [.AccountFor "current" invoice.UserID, .AccountFor "outgoing" invoice.UserID,
              .BeginTx, .InsertEntry (entryFor invoice debitAccount creditAccount),
              .SendPaymentSync (sendRequestFor invoice)] ++ rest) := by
  constructor
  · intro debitAccount creditAccount err hdebit hcredit hbegin hinsert
    rw [PayInvoice_run_insert_rejected svc w invoice debitAccount creditAccount err hdebit
      hcredit hbegin hinsert]
    refine ⟨rfl, rfl, rfl, rfl, ?_, ?_⟩ <;> simp [newCalls, Call.isSendPaymentSync]
  · intro hsent
    cases hdebit : svc.AccountFor "current" invoice.UserID with
    | error e => simp [PayInvoice, hdebit, World.log, newCalls, Call.isSendPaymentSync] at hsent
    | ok debitAccount =>
    cases hcredit : svc.AccountFor "outgoing" invoice.UserID with
    | error e =>
      simp [PayInvoice, hdebit, hcredit, World.log, newCalls, Call.isSendPaymentSync] at hsent
    | ok creditAccount =>
    cases hbegin : svc.BeginTx with
    | some e =>
      simp [PayInvoice, hdebit, hcredit, hbegin, World.log, newCalls,
        Call.isSendPaymentSync] at hsent
    | none =>
    cases hinsert : svc.InsertEntry (entryFor invoice debitAccount creditAccount) with
    | error e =>
      rw [PayInvoice_run_insert_rejected svc w invoice debitAccount creditAccount e hdebit
        hcredit hbegin hinsert] at hsent
      simp [newCalls, Call.isSendPaymentSync] at hsent
    | ok id =>
    refine ⟨debitAccount, creditAccount, id, ?_, rfl, rfl, hinsert, ?_⟩
    · exact ((newCalls w (PayInvoice svc w invoice).world).drop 5)
    · simp only [entryFor] at hinsert
      simp only [PayInvoice, hdebit, hcredit, hbegin, hinsert, World.log, newCalls, entryFor,
        sendRequestFor]
      split <;> [skip; split] <;> [skip; skip; split] <;> [skip; skip; skip; split] <;> simp

/-- Witness of C4: the store rejects the entry of the scenario's invoice. -/
theorem PayInvoice_insert_rejected_witness :
    (PayInvoice Scenario.insertRejected Scenario.world Scenario.invoice).err
      = some "check_not_over_spend violated" ∧
    (PayInvoice Scenario.insertRejected Scenario.world Scenario.invoice).world.db
      = Scenario.world.db ∧
    (∀ c ∈ newCalls Scenario.world
        (PayInvoice Scenario.insertRejected Scenario.world Scenario.invoice).world,
      c.isSendPaymentSync = false) :=
  have h := (PayInvoice_insert_rejected Scenario.insertRejected Scenario.world
    Scenario.invoice).1 ⟨11, 7, "current"⟩ ⟨12, 7, "outgoing"⟩ "check_not_over_spend violated"
    rfl rfl rfl rfl
  ⟨h.1, h.2.1, h.2.2.2.2.2⟩

/-- Every run of `PayInvoice` that returns an error commits no entry; and it
leaves the invoice record and the store untouched unless the payment had
succeeded, in which case the record passed in is the settled one and the store
differs from the one before at most by the update of the invoice row. -/
theorem PayInvoice_error_cases (svc : LndhubService) (w : World) (invoice : Invoice)
    (herr : (PayInvoice svc w invoice).err ≠ none) :
    (PayInvoice svc w invoice).world.db.entries = w.db.entries ∧
    (((PayInvoice svc w invoice).invoice = invoice ∧
        (PayInvoice svc w invoice).world.db = w.db) ∨
      ∃ preimage : List Byte,
        (PayInvoice svc w invoice).invoice = settledWith invoice preimage svc.Now ∧
        ((PayInvoice svc w invoice).world.db = w.db ∨
          (PayInvoice svc w invoice).world.db
            = w.db.updateInvoice (settledWith invoice preimage svc.Now))) := by
  cases hdebit : svc.AccountFor "current" invoice.UserID with
  | error e => simp [PayInvoice, hdebit, World.log]
  | ok debitAccount =>
  cases hcredit : svc.AccountFor "outgoing" invoice.UserID with
  | error e => simp [PayInvoice, hdebit, hcredit, World.log]
  | ok creditAccount =>
  cases hbegin : svc.BeginTx with
  | some e => simp [PayInvoice, hdebit, hcredit, hbegin, World.log]
  | none =>
  cases hinsert : svc.InsertEntry (entryFor invoice debitAccount creditAccount) with
  | error e =>
    rw [PayInvoice_run_insert_rejected svc w invoice debitAccount creditAccount e hdebit
      hcredit hbegin hinsert]
    exact ⟨rfl, Or.inl ⟨rfl, rfl⟩⟩
  | ok id =>
  cases hsend : svc.SendPaymentSync (sendRequestFor invoice) with
  | error e =>
    simp only [entryFor, sendRequestFor] at hinsert hsend
    simp [PayInvoice, hdebit, hcredit, hbegin, hinsert, hsend, World.log]
  | ok resp =>
  by_cases hfailed : GetPaymentError resp ≠ "" ∨ GetPaymentPreimage resp = none
  · rw [PayInvoice_run_payment_failed svc w invoice debitAccount creditAccount id resp hdebit
      hcredit hbegin hinsert hsend hfailed]
    exact ⟨rfl, Or.inl ⟨rfl, rfl⟩⟩
  · simp only [entryFor, sendRequestFor] at hinsert hsend
    cases hupdate : svc.UpdateInvoice
        (settledWith invoice ((GetPaymentPreimage resp).getD []) svc.Now) with
    | some e =>
      simp only [settledWith] at hupdate
      refine ⟨?_, Or.inr ⟨(GetPaymentPreimage resp).getD [], ?_, Or.inl ?_⟩⟩ <;>
        simp [PayInvoice, hdebit, hcredit, hbegin, hinsert, hsend, hfailed, hupdate, World.log,
          settledWith]
    | none =>
      simp only [settledWith] at hupdate
      cases hcommit : svc.Commit with
      | some e =>
        refine ⟨?_, Or.inr ⟨(GetPaymentPreimage resp).getD [], ?_, Or.inr ?_⟩⟩ <;>
          simp [PayInvoice, hdebit, hcredit, hbegin, hinsert, hsend, hfailed, hupdate, hcommit,
            World.log, settledWith, DB.updateInvoice]
      | none =>
        simp [PayInvoice, hdebit, hcredit, hbegin, hinsert, hsend, hfailed, hupdate, hcommit,
          World.log] at herr

/-- C2: two runs of `PayInvoice` on an invoice in state "initialized" that
return an error. When the commit fails after the payment succeeded, the record
passed in and the stored row are "settled" and carry the preimage, while no
committed entry references the invoice. When the update of the invoice fails,
the record passed in is "settled" and carries the preimage, while the stored
row is untouched and no entry is committed. -/
theorem PayInvoice_error_after_payment :
    Scenario.invoice.State = "initialized" ∧
    (PayInvoice Scenario.commitFails Scenario.world Scenario.invoice).err
      = some "driver: bad connection" ∧
    (PayInvoice Scenario.commitFails Scenario.world Scenario.invoice).invoice.State
      = "settled" ∧
    (PayInvoice Scenario.commitFails Scenario.world Scenario.invoice).invoice.Preimage
      = "aaaa" ∧
    invoiceRows (PayInvoice Scenario.commitFails Scenario.world Scenario.invoice).world.db 42
      = [settledWith Scenario.invoice [0xAA, 0xAA] 1700000000] ∧
    entriesFor (PayInvoice Scenario.commitFails Scenario.world Scenario.invoice).world.db 42
      = [] ∧
    (PayInvoice Scenario.updateFails Scenario.world Scenario.invoice).err
      = some "driver: bad connection" ∧
    (PayInvoice Scenario.updateFails Scenario.world Scenario.invoice).invoice.State
      = "settled" ∧
    (PayInvoice Scenario.updateFails Scenario.world Scenario.invoice).invoice.Preimage
      = "aaaa" ∧
    invoiceRows (PayInvoice Scenario.updateFails Scenario.world Scenario.invoice).world.db 42
      = [Scenario.invoice] ∧
    entriesFor (PayInvoice Scenario.updateFails Scenario.world Scenario.invoice).world.db 42
      = [] := by
  decide


/-! ## Theorems: AddIncomingInvoice -/

/-- The run of `AddIncomingInvoice` in which the insert succeeds and the payment
network fails. -/
theorem AddIncomingInvoice_run_network_failed (svc : LndhubService) (w : World)
    (userID amount : Int) (memo descriptionHash : String) (id : Int) (err : String)
    (hinsert : svc.InsertInvoice (incomingInvoice userID amount memo descriptionHash) = .ok id)
    (hadd : svc.AddInvoice (lnInvoiceFor svc amount memo) = .error err) :
    AddIncomingInvoice svc w userID amount memo descriptionHash =
      (none, some err,
        { db := w.db.insertInvoice
            { incomingInvoice userID amount memo descriptionHash with ID := id }
          calls := w.calls ++ [.InsertInvoice (incomingInvoice userID amount memo descriptionHash),
            .AddInvoice (lnInvoiceFor svc amount memo)] }) := by
  simp [incomingInvoice, lnInvoiceFor] at hinsert hadd
  simp [AddIncomingInvoice, hinsert, hadd, World.log, incomingInvoice, lnInvoiceFor]

/-- The run of `AddIncomingInvoice` in which the insert and the payment network
succeed and the update fails. -/
theorem AddIncomingInvoice_run_update_failed (svc : LndhubService) (w : World)
    (userID amount : Int) (memo descriptionHash : String) (id : Int)
    (res : AddInvoiceResponse) (err : String)
    (hinsert : svc.InsertInvoice (incomingInvoice userID amount memo descriptionHash) = .ok id)
    (hadd : svc.AddInvoice (lnInvoiceFor svc amount memo) = .ok res)
    (hupdate : svc.UpdateInvoice (createdWith svc
      { incomingInvoice userID amount memo descriptionHash with ID := id } res) = some err) :
    AddIncomingInvoice svc w userID amount memo descriptionHash =
      (none, some err,
        { db := w.db.insertInvoice
            { incomingInvoice userID amount memo descriptionHash with ID := id }
          calls := w.calls ++ [.InsertInvoice (incomingInvoice userID amount memo descriptionHash),
            .AddInvoice (lnInvoiceFor svc amount memo),
            .UpdateInvoice (createdWith svc
              { incomingInvoice userID amount memo descriptionHash with ID := id } res)] }) := by
  simp [incomingInvoice, lnInvoiceFor, createdWith] at hinsert hadd hupdate
  simp [AddIncomingInvoice, hinsert, hadd, hupdate, World.log, incomingInvoice, lnInvoiceFor,
    createdWith]

/-- The run of `AddIncomingInvoice` in which every call succeeds. -/
theorem AddIncomingInvoice_run_created (svc : LndhubService) (w : World)
    (userID amount : Int) (memo descriptionHash : String) (id : Int)
    (res : AddInvoiceResponse)
    (hinsert : svc.InsertInvoice (incomingInvoice userID amount memo descriptionHash) = .ok id)
    (hadd : svc.AddInvoice (lnInvoiceFor svc amount memo) = .ok res)
    (hupdate : svc.UpdateInvoice (createdWith svc
      { incomingInvoice userID amount memo descriptionHash with ID := id } res) = none) :
    AddIncomingInvoice svc w userID amount memo descriptionHash =
      (some (createdWith svc
          { incomingInvoice userID amount memo descriptionHash with ID := id } res), none,
        { db := (w.db.insertInvoice
              { incomingInvoice userID amount memo descriptionHash with ID := id }).updateInvoice
            (createdWith svc
              { incomingInvoice userID amount memo descriptionHash with ID := id } res)
          calls := w.calls ++ [.InsertInvoice (incomingInvoice userID amount memo descriptionHash),
            .AddInvoice (lnInvoiceFor svc amount memo),
            .UpdateInvoice (createdWith svc
              { incomingInvoice userID amount memo descriptionHash with ID := id } res)] }) := by
  simp [incomingInvoice, lnInvoiceFor, createdWith] at hinsert hadd hupdate
  simp [AddIncomingInvoice, hinsert, hadd, hupdate, World.log, incomingInvoice, lnInvoiceFor,
    createdWith]

/-- The rows with a fresh id after the insert of a row with that id. -/
theorem invoiceRows_insert_fresh (db : DB) (invoice : Invoice)
    (hfresh : ∀ row ∈ db.invoices, row.ID ≠ invoice.ID) :
    invoiceRows (db.insertInvoice invoice) invoice.ID = [invoice] := by
  have h : db.invoices.filter (fun row => decide (row.ID = invoice.ID)) = [] := by
    rw [List.filter_eq_nil_iff]
    intro row hrow
    simpa using hfresh row hrow
  simp [invoiceRows, DB.insertInvoice, List.filter_append, h]

/-- The rows with a fresh id after the insert and the update of a row with that id. -/
theorem invoiceRows_insert_update_fresh (db : DB) (invoice updated : Invoice)
    (hid : updated.ID = invoice.ID)
    (hfresh : ∀ row ∈ db.invoices, row.ID ≠ invoice.ID) :
    invoiceRows ((db.insertInvoice invoice).updateInvoice updated) invoice.ID = [updated] := by
  have h1 : (db.invoices.map fun row => if row.ID = updated.ID then updated else row)
      = db.invoices := by
    conv_rhs => rw [← List.map_id db.invoices]
    apply List.map_congr_left
    intro row hrow
    rw [if_neg (by rw [hid]; exact hfresh row hrow)]
    rfl
  have h2 : db.invoices.filter (fun row => decide (row.ID = invoice.ID)) = [] := by
    rw [List.filter_eq_nil_iff]
    intro row hrow
    simpa using hfresh row hrow
  simp only [invoiceRows, DB.insertInvoice, DB.updateInvoice, List.map_append,
    List.filter_append, h1, h2, List.map_cons, List.map_nil, List.nil_append]
  simp [hid]


/-- The run of `AddIncomingInvoice` in which the insert fails. -/
theorem AddIncomingInvoice_run_insert_failed (svc : LndhubService) (w : World)
    (userID amount : Int) (memo descriptionHash : String) (err : String)
    (hinsert : svc.InsertInvoice (incomingInvoice userID amount memo descriptionHash)
      = .error err) :
    AddIncomingInvoice svc w userID amount memo descriptionHash =
      (none, some err,
        { db := w.db
          calls := w.calls
            ++ [.InsertInvoice (incomingInvoice userID amount memo descriptionHash)] }) := by
  simp [incomingInvoice] at hinsert
  simp [AddIncomingInvoice, hinsert, World.log, incomingInvoice]

/-- C6: `AddIncomingInvoice` first hands the store a row in state
"initialized", and calls `AddInvoice` only once the store has accepted that row.
When the store assigns the row a fresh id and `AddInvoice` fails, the call
returns that error with no invoice, and the stored row is the row as inserted:
state "initialized", empty payment request, empty payment hash. A stored row
with that id in state "created" exists only if `AddInvoice` succeeded, and it
carries the returned payment request, the hex of the returned payment hash and
the returned add index. -/
theorem AddIncomingInvoice_row_states (svc : LndhubService) (w : World)
    (userID amount : Int) (memo descriptionHash : String) :
    (incomingInvoice userID amount memo descriptionHash).State = "initialized" ∧
    (∃ rest, newCalls w (AddIncomingInvoice svc w userID amount memo descriptionHash).2.2
      = .InsertInvoice (incomingInvoice userID amount memo descriptionHash) :: rest) ∧
    (Call.AddInvoice (lnInvoiceFor svc amount memo)
        ∈ newCalls w (AddIncomingInvoice svc w userID amount memo descriptionHash).2.2 →
      ∃ id rest,
        svc.InsertInvoice (incomingInvoice userID amount memo descriptionHash) = .ok id ∧
        newCalls w (AddIncomingInvoice svc w userID amount memo descriptionHash).2.2
          = [.InsertInvoice (incomingInvoice userID amount memo descriptionHash),
              .AddInvoice (lnInvoiceFor svc amount memo)] ++ rest) ∧
    (∀ err, svc.InsertInvoice (incomingInvoice userID amount memo descriptionHash) = .error err →
      (AddIncomingInvoice svc w userID amount memo descriptionHash).1 = none ∧
      (AddIncomingInvoice svc w userID amount memo descriptionHash).2.1 = some err ∧
      (AddIncomingInvoice svc w userID amount memo descriptionHash).2.2.db = w.db ∧
      newCalls w (AddIncomingInvoice svc w userID amount memo descriptionHash).2.2
        = [.InsertInvoice (incomingInvoice userID amount memo descriptionHash)]) ∧
    (∀ id, svc.InsertInvoice (incomingInvoice userID amount memo descriptionHash) = .ok id →
      (∀ row ∈ w.db.invoices, row.ID ≠ id) →
      (∀ err, svc.AddInvoice (lnInvoiceFor svc amount memo) = .error err →
        (AddIncomingInvoice svc w userID amount memo descriptionHash).1 = none ∧
        (AddIncomingInvoice svc w userID amount memo descriptionHash).2.1 = some err ∧
        (AddIncomingInvoice svc w userID amount memo descriptionHash).2.2.db
          = w.db.insertInvoice
              { incomingInvoice userID amount memo descriptionHash with ID := id } ∧
        invoiceRows (AddIncomingInvoice svc w userID amount memo descriptionHash).2.2.db id
          = [{ incomingInvoice userID amount memo descriptionHash with ID := id }] ∧
        (∀ row ∈
            invoiceRows (AddIncomingInvoice svc w userID amount memo descriptionHash).2.2.db id,
          row.State = "initialized" ∧ row.PaymentRequest = "" ∧ row.RHash = "")) ∧
      (∀ row ∈ invoiceRows (AddIncomingInvoice svc w userID amount memo descriptionHash).2.2.db id,
        row.State = "created" →
        ∃ res, svc.AddInvoice (lnInvoiceFor svc amount memo) = .ok res ∧
          row.PaymentRequest = res.PaymentRequest ∧
          row.RHash = EncodeToString res.RHash ∧
          row.AddIndex = res.AddIndex)) := by
  refine ⟨rfl, ?_, ?_, ?_, ?_⟩
  · cases hinsert : svc.InsertInvoice (incomingInvoice userID amount memo descriptionHash) with
    | error e =>
      rw [AddIncomingInvoice_run_insert_failed svc w userID amount memo descriptionHash e hinsert]
      exact ⟨[], by simp [newCalls]⟩
    | ok id =>
    cases hadd : svc.AddInvoice (lnInvoiceFor svc amount memo) with
    | error e =>
      rw [AddIncomingInvoice_run_network_failed svc w userID amount memo descriptionHash id e
        hinsert hadd]
      rw [newCalls_append]
      exact ⟨_, rfl⟩
    | ok res =>
    cases hupdate : svc.UpdateInvoice (createdWith svc
      { incomingInvoice userID amount memo descriptionHash with ID := id } res) with
    | some e =>
      rw [AddIncomingInvoice_run_update_failed svc w userID amount memo descriptionHash id res e
        hinsert hadd hupdate]
      rw [newCalls_append]
      exact ⟨_, rfl⟩
    | none =>
      rw [AddIncomingInvoice_run_created svc w userID amount memo descriptionHash id res
        hinsert hadd hupdate]
      rw [newCalls_append]
      exact ⟨_, rfl⟩
  · intro hcalled
    cases hinsert : svc.InsertInvoice (incomingInvoice userID amount memo descriptionHash) with
    | error e =>
      rw [AddIncomingInvoice_run_insert_failed svc w userID amount memo descriptionHash e
        hinsert] at hcalled
      simp [newCalls] at hcalled
    | ok id =>
    refine ⟨id, ?_⟩
    cases hadd : svc.AddInvoice (lnInvoiceFor svc amount memo) with
    | error e =>
      rw [AddIncomingInvoice_run_network_failed svc w userID amount memo descriptionHash id e
        hinsert hadd]
      rw [newCalls_append]
      exact ⟨[], rfl, rfl⟩
    | ok res =>
    cases hupdate : svc.UpdateInvoice (createdWith svc
      { incomingInvoice userID amount memo descriptionHash with ID := id } res) with
    | some e =>
      rw [AddIncomingInvoice_run_update_failed svc w userID amount memo descriptionHash id res e
        hinsert hadd hupdate]
      rw [newCalls_append]
      exact ⟨_, rfl, rfl⟩
    | none =>
      rw [AddIncomingInvoice_run_created svc w userID amount memo descriptionHash id res
        hinsert hadd hupdate]
      rw [newCalls_append]
      exact ⟨_, rfl, rfl⟩
  · intro err hinsert
    rw [AddIncomingInvoice_run_insert_failed svc w userID amount memo descriptionHash err hinsert]
    exact ⟨rfl, rfl, rfl, by simp [newCalls]⟩
  · intro id hinsert hfresh
    have hrow := invoiceRows_insert_fresh w.db
      { incomingInvoice userID amount memo descriptionHash with ID := id } hfresh
    constructor
    · intro err hadd
      rw [AddIncomingInvoice_run_network_failed svc w userID amount memo descriptionHash id err
        hinsert hadd]
      refine ⟨rfl, rfl, rfl, hrow, ?_⟩
      intro row hmem
      have hmem : row ∈ invoiceRows (w.db.insertInvoice
          { incomingInvoice userID amount memo descriptionHash with ID := id }) id := hmem
      rw [hrow, List.mem_singleton] at hmem
      subst hmem
      exact ⟨rfl, rfl, rfl⟩
    · intro row hmem hstate
      cases hadd : svc.AddInvoice (lnInvoiceFor svc amount memo) with
      | error e =>
        rw [AddIncomingInvoice_run_network_failed svc w userID amount memo descriptionHash id e
          hinsert hadd] at hmem
        have hmem : row ∈ invoiceRows (w.db.insertInvoice
            { incomingInvoice userID amount memo descriptionHash with ID := id }) id := hmem
        rw [hrow, List.mem_singleton] at hmem
        subst hmem
        simp [incomingInvoice] at hstate
      | ok res =>
      refine ⟨res, rfl, ?_⟩
      cases hupdate : svc.UpdateInvoice (createdWith svc
        { incomingInvoice userID amount memo descriptionHash with ID := id } res) with
      | some e =>
        rw [AddIncomingInvoice_run_update_failed svc w userID amount memo descriptionHash id res e
          hinsert hadd hupdate] at hmem
        have hmem : row ∈ invoiceRows (w.db.insertInvoice
            { incomingInvoice userID amount memo descriptionHash with ID := id }) id := hmem
        rw [hrow, List.mem_singleton] at hmem
        subst hmem
        simp [incomingInvoice] at hstate
      | none =>
        rw [AddIncomingInvoice_run_created svc w userID amount memo descriptionHash id res
          hinsert hadd hupdate] at hmem
        have hmem : row ∈ invoiceRows ((w.db.insertInvoice
            { incomingInvoice userID amount memo descriptionHash with ID := id }).updateInvoice
            (createdWith svc
              { incomingInvoice userID amount memo descriptionHash with ID := id } res)) id :=
          hmem
        rw [invoiceRows_insert_update_fresh w.db
          { incomingInvoice userID amount memo descriptionHash with ID := id }
          (createdWith svc { incomingInvoice userID amount memo descriptionHash with ID := id }
            res) rfl hfresh, List.mem_singleton] at hmem
        subst hmem
        exact ⟨rfl, rfl, rfl⟩

/-- Witness of C6: the payment network cannot be reached after the row with
the fresh id 43 was stored. -/
theorem AddIncomingInvoice_row_states_witness :
    (AddIncomingInvoice Scenario.addInvoiceFails Scenario.world 7 5000 "coffee" "").1 = none ∧
    (AddIncomingInvoice Scenario.addInvoiceFails Scenario.world 7 5000 "coffee" "").2.1
      = some "rpc error: code = Unavailable" ∧
    invoiceRows (AddIncomingInvoice Scenario.addInvoiceFails Scenario.world 7 5000 "coffee"
        "").2.2.db 43
      = [{ incomingInvoice 7 5000 "coffee" "" with ID := 43 }] :=
  have h := ((AddIncomingInvoice_row_states Scenario.addInvoiceFails Scenario.world 7 5000
    "coffee" "").2.2.2.2 43 rfl (by decide)).1 "rpc error: code = Unavailable" rfl
  ⟨h.1, h.2.1, h.2.2.2.1⟩


/-! ## Theorems: AddOutgoingInvoice -/

/-- The amount of a request in the ledger's unit: the millisatoshi amount
divided by 1000, rounded down. -/
theorem ToSatoshis_eq (msat : Nat) (h : msat < 2 ^ 64) :
    ToSatoshis msat = ((msat / 1000 : Nat) : Int) := by
  unfold ToSatoshis toInt64
  have h1 : msat % 2 ^ 64 = msat := Nat.mod_eq_of_lt h
  have h2 : msat / 1000 % 2 ^ 64 = msat / 1000 := Nat.mod_eq_of_lt (by omega)
  rw [h1, h2, if_pos (by omega)]

/-- For a request that carries a description, `AddOutgoingInvoice` hands the
store the invoice `outgoingInvoice` and returns it with the id the store
assigned, or returns the store's error. -/
theorem AddOutgoingInvoice_with_description (svc : LndhubService) (w : World) (userID : Int)
    (paymentRequest : String) (decodedInvoice : Zpay32Invoice) (description : String)
    (hdescription : decodedInvoice.Description = some description) :
    AddOutgoingInvoice svc w userID paymentRequest decodedInvoice =
      match svc.InsertInvoice (outgoingInvoice userID paymentRequest decodedInvoice description) with
      | .error err =>
        .returned (none, some err,
          { db := w.db
            calls := w.calls ++ [.InsertInvoice
              (outgoingInvoice userID paymentRequest decodedInvoice description)] })
      | .ok id =>
        .returned
          (some { outgoingInvoice userID paymentRequest decodedInvoice description with ID := id },
            none,
            { db := w.db.insertInvoice
                { outgoingInvoice userID paymentRequest decodedInvoice description with ID := id }
              calls := w.calls ++ [.InsertInvoice
                (outgoingInvoice userID paymentRequest decodedInvoice description)] }) := by
  obtain ⟨destination, desc, dh, ph, msat⟩ := decodedInvoice
  simp only at hdescription
  subst hdescription
  cases dh <;> cases ph <;> cases msat <;>
    simp only [AddOutgoingInvoice, outgoingInvoice, World.log]

/-- C7: for a decoded payment request that carries no description (as a
request with a description hash does), `AddOutgoingInvoice` hands nothing to the
store and returns nothing: it panics on the nil description, whatever the other
fields are. -/
theorem AddOutgoingInvoice_without_description (svc : LndhubService) (w : World) (userID : Int)
    (paymentRequest : String) (destination : List Byte)
    (descriptionHash paymentHash : Option (List Byte)) (milliSat : Option Nat) :
    AddOutgoingInvoice svc w userID paymentRequest
        { Destination := destination
          Description := none
          DescriptionHash := descriptionHash
          PaymentHash := paymentHash
          MilliSat := milliSat }
      = .panicked "runtime error: invalid memory address or nil pointer dereference" := rfl

/-! ## Theorems: DecodePaymentRequest -/

theorem asciiBytes_bcrt : asciiBytes "bcrt" = [98, 99, 114, 116] := by decide

theorem asciiBytes_tb : asciiBytes "tb" = [116, 98] := by decide

theorem asciiBytes_sb : asciiBytes "sb" = [115, 98] := by decide

theorem ChainFromCurrency_bcrt (rest : List Byte) :
    ChainFromCurrency (asciiBytes "bcrt" ++ rest) = .RegressionNetParams := by
  simp [ChainFromCurrency, HasPrefix, asciiBytes_bcrt]

theorem ChainFromCurrency_tb (rest : List Byte) :
    ChainFromCurrency (asciiBytes "tb" ++ rest) = .TestNet3Params := by
  have h : (116 : Byte) ≠ 98 := by decide
  simp [ChainFromCurrency, HasPrefix, asciiBytes_bcrt, asciiBytes_tb, h]

theorem ChainFromCurrency_sb (rest : List Byte) :
    ChainFromCurrency (asciiBytes "sb" ++ rest) = .SimNetParams := by
  have h1 : (115 : Byte) ≠ 98 := by decide
  have h2 : (115 : Byte) ≠ 116 := by decide
  simp [ChainFromCurrency, HasPrefix, asciiBytes_bcrt, asciiBytes_tb, asciiBytes_sb, h1, h2]

theorem ChainFromCurrency_otherwise (currency : List Byte)
    (h1 : HasPrefix currency (asciiBytes "bcrt") = false)
    (h2 : HasPrefix currency (asciiBytes "tb") = false)
    (h3 : HasPrefix currency (asciiBytes "sb") = false) :
    ChainFromCurrency currency = .MainNetParams := by
  simp [ChainFromCurrency, h1, h2, h3]

/-- For a text of two bytes or more, `DecodePaymentRequest` returns what the
decoder answers for the parameters chosen from the text after its first two bytes. -/
theorem DecodePaymentRequest_of_two_le (svc : LndhubService) (bolt11 : List Byte)
    (h : 2 ≤ bolt11.length) :
    DecodePaymentRequest svc bolt11
      = .returned (svc.zpay32Decode bolt11 (ChainFromCurrency (bolt11.drop 2))) := by
  simp [DecodePaymentRequest, h]

/-- C10: on the empty text and on every text of one byte,
`DecodePaymentRequest` neither returns a decoded invoice nor a decode error: the
slice expression `bolt11[2:]` panics before the decoder is called. -/
theorem DecodePaymentRequest_short_text (svc : LndhubService) :
    DecodePaymentRequest svc [] = .panicked "runtime error: slice bounds out of range [2:0]" ∧
    ∀ b : Byte,
      DecodePaymentRequest svc [b]
        = .panicked "runtime error: slice bounds out of range [2:1]" := by
  constructor
  · simp [DecodePaymentRequest]
    decide
  · intro b
    simp [DecodePaymentRequest]
    decide


/-! ## Theorems: FetchOrCreateAssetAddr -/

/-- The run of `FetchOrCreateAssetAddr` in which the lookup returns a row and an error. -/
theorem FetchOrCreateAssetAddr_run_lookup_failed (svc : LndhubService) (w : World)
    (userId : Nat) (assetId : String) (amt : Nat) (addr : Address) (err : String)
    (hfind : svc.FindAddress w.db userId assetId amt = (some addr, some err)) :
    FetchOrCreateAssetAddr svc w userId assetId amt =
      (("error: failed to check on existing address.", some err),
        { db := w.db, calls := w.calls ++ [.FindAddress userId assetId amt] }) := by
  simp [FetchOrCreateAssetAddr, World.log, hfind]

/-- The run of `FetchOrCreateAssetAddr` in which the lookup returns a row and no error. -/
theorem FetchOrCreateAssetAddr_run_found (svc : LndhubService) (w : World)
    (userId : Nat) (assetId : String) (amt : Nat) (addr : Address)
    (hfind : svc.FindAddress w.db userId assetId amt = (some addr, none)) :
    FetchOrCreateAssetAddr svc w userId assetId amt =
      (("address: " ++ addr.Addr, none),
        { db := w.db, calls := w.calls ++ [.FindAddress userId assetId amt] }) := by
  simp [FetchOrCreateAssetAddr, World.log, hfind]

/-- A run of `FetchOrCreateAssetAddr` whose lookup returns no row makes the
lookup call first and, when it returns a nil error, has minted and stored one
address. -/
theorem FetchOrCreateAssetAddr_run_not_found (svc : LndhubService) (w : World)
    (userId : Nat) (assetId : String) (amt : Nat)
    (hfind : (svc.FindAddress w.db userId assetId amt).1 = none)
    (hok : (FetchOrCreateAssetAddr svc w userId assetId amt).1.2 = none) :
    ∃ (decoded : List Byte) (newAddr : NewAddrResponse) (db1 : DB) (created : Option Address),
      svc.CreateAddress w.db newAddr.Encoded userId assetId amt = (db1, (created, none)) ∧
      FetchOrCreateAssetAddr svc w userId assetId amt =
        (("address: " ++ newAddr.Encoded, none),
          { db := db1
            calls := w.calls ++ [.FindAddress userId assetId amt,
              .NewAddress { AssetId := decoded, Amt := amt },
              .CreateAddress newAddr.Encoded userId assetId amt] }) := by
  rcases hpair : svc.FindAddress w.db userId assetId amt with ⟨found, ferr⟩
  rw [hpair] at hfind
  simp only at hfind
  subst hfind
  cases hdec : svc.hexDecodeString assetId with
  | error e => simp [FetchOrCreateAssetAddr, World.log, hpair, hdec] at hok
  | ok decoded =>
  cases hnew : svc.NewAddress { db := w.db, calls := w.calls ++ [.FindAddress userId assetId amt] }
      { AssetId := decoded, Amt := amt } with
  | error e => simp [FetchOrCreateAssetAddr, World.log, hpair, hdec, hnew] at hok
  | ok newAddr =>
  rcases hcreate : svc.CreateAddress w.db newAddr.Encoded userId assetId amt with
    ⟨db1, created, cerr⟩
  cases cerr with
  | some e => simp [FetchOrCreateAssetAddr, World.log, hpair, hdec, hnew, hcreate] at hok
  | none =>
    refine ⟨decoded, newAddr, db1, created, hcreate, ?_⟩
    simp [FetchOrCreateAssetAddr, World.log, hpair, hdec, hnew, hcreate]

/-- C8, amended: when the lookup returns an error together with a non-nil
address, `FetchOrCreateAssetAddr` returns that error after the lookup call
alone, with the store unchanged and neither `NewAddress` nor `CreateAddress`
called; in every run, one of these two calls is made only when the lookup
returned a nil address; and when the lookup returned a nil address, with
whatever error or none, and the asset id decodes, `NewAddress` is called next:
the error that comes with a nil address is never inspected. -/
theorem FetchOrCreateAssetAddr_lookup_error (svc : LndhubService) (w : World)
    (userId : Nat) (assetId : String) (amt : Nat) :
    (∀ (addr : Address) (err : String),
      svc.FindAddress w.db userId assetId amt = (some addr, some err) →
        (FetchOrCreateAssetAddr svc w userId assetId amt).1
          = ("error: failed to check on existing address.", some err) ∧
        (FetchOrCreateAssetAddr svc w userId assetId amt).2.db = w.db ∧
        newCalls w (FetchOrCreateAssetAddr svc w userId assetId amt).2
          = [.FindAddress userId assetId amt] ∧
        (∀ c ∈ newCalls w (FetchOrCreateAssetAddr svc w userId assetId amt).2,
          c.isNewAddress = false ∧ c.isCreateAddress = false)) ∧
    ((∃ c ∈ newCalls w (FetchOrCreateAssetAddr svc w userId assetId amt).2,
        c.isNewAddress = true ∨ c.isCreateAddress = true) →
      (svc.FindAddress w.db userId assetId amt).1 = none) ∧
    (∀ (ferr : GoError) (decoded : List Byte),
      svc.FindAddress w.db userId assetId amt = (none, ferr) →
      svc.hexDecodeString assetId = .ok decoded →
        ∃ rest, newCalls w (FetchOrCreateAssetAddr svc w userId assetId amt).2
          = [.FindAddress userId assetId amt, .NewAddress { AssetId := decoded, Amt := amt }]
            ++ rest) := by
  refine ⟨?_, ?_, ?_⟩
  · intro addr err hfind
    rw [FetchOrCreateAssetAddr_run_lookup_failed svc w userId assetId amt addr err hfind,
      newCalls_append]
    refine ⟨rfl, rfl, rfl, ?_⟩
    simp [Call.isNewAddress, Call.isCreateAddress]
  rotate_left
  · intro ferr decoded hfind hdec
    cases hnew : svc.NewAddress
        { db := w.db, calls := w.calls ++ [.FindAddress userId assetId amt] }
        { AssetId := decoded, Amt := amt } with
    | error e =>
      refine ⟨[], ?_⟩
      simp [FetchOrCreateAssetAddr, World.log, hfind, hdec, hnew, newCalls]
    | ok newAddr =>
      rcases hcreate : svc.CreateAddress w.db newAddr.Encoded userId assetId amt with
        ⟨db1, created, cerr⟩
      refine ⟨[.CreateAddress newAddr.Encoded userId assetId amt], ?_⟩
      cases cerr <;>
        simp [FetchOrCreateAssetAddr, World.log, hfind, hdec, hnew, hcreate, newCalls]
  · intro hminted
    rcases hpair : svc.FindAddress w.db userId assetId amt with ⟨found, ferr⟩
    cases found with
    | none => rfl
    | some addr =>
      cases ferr with
      | some err =>
        rw [FetchOrCreateAssetAddr_run_lookup_failed svc w userId assetId amt addr err hpair,
          newCalls_append] at hminted
        simp [Call.isNewAddress, Call.isCreateAddress] at hminted
      | none =>
        rw [FetchOrCreateAssetAddr_run_found svc w userId assetId amt addr hpair,
          newCalls_append] at hminted
        simp [Call.isNewAddress, Call.isCreateAddress] at hminted

/-- Witness of C8, amended: the store answers the lookup with a connection
error and a non-nil address. -/
theorem FetchOrCreateAssetAddr_lookup_error_witness :
    (FetchOrCreateAssetAddr Scenario.lookupFails Scenario.world 3 "deadbeef" 100).1
      = ("error: failed to check on existing address.", some "driver: bad connection") ∧
    newCalls Scenario.world
        (FetchOrCreateAssetAddr Scenario.lookupFails Scenario.world 3 "deadbeef" 100).2
      = [.FindAddress 3 "deadbeef" 100] :=
  have h := (FetchOrCreateAssetAddr_lookup_error Scenario.lookupFails Scenario.world 3
    "deadbeef" 100).1 ⟨3, "deadbeef", 100, ""⟩ "driver: bad connection" rfl
  ⟨h.1, h.2.2.1⟩

/-- Counterexample to C8 as stated: the lookup fails with a connection error,
which is not the not-found error, and returns it with a nil address; the call
does not return that error but mints and stores a new address and returns it
with a nil error. -/
theorem FetchOrCreateAssetAddr_mints_after_lookup_error :
    Scenario.lookupBroken.FindAddress Scenario.world.db 3 "deadbeef" 100
      = (none, some "driver: bad connection") ∧
    "driver: bad connection" ≠ ErrNoRows ∧
    (FetchOrCreateAssetAddr Scenario.lookupBroken Scenario.world 3 "deadbeef" 100).1
      = ("address: taprt1qqqs", none) ∧
    newCalls Scenario.world
        (FetchOrCreateAssetAddr Scenario.lookupBroken Scenario.world 3 "deadbeef" 100).2
      = [.FindAddress 3 "deadbeef" 100,
          .NewAddress { AssetId := [0xDE, 0xAD, 0xBE, 0xEF], Amt := 100 },
          .CreateAddress "taprt1qqqs" 3 "deadbeef" 100] ∧
    (FetchOrCreateAssetAddr Scenario.lookupBroken Scenario.world 3 "deadbeef" 100).2.db.addresses
      = [{ UserId := 3, AssetId := "deadbeef", Amt := 100, Addr := "taprt1qqqs" }] := by
  decide

/-- The store of the scenarios keeps addresses. -/
theorem Scenario.svc_keepsAddresses : KeepsAddresses Scenario.svc := by
  intro db db1 encoded userId assetId amt created hfind hcreate
  simp only [Scenario.svc, listFindAddress, listCreateAddress] at hfind hcreate ⊢
  simp only [Prod.mk.injEq] at hcreate
  obtain ⟨hdb, -, -⟩ := hcreate
  subst hdb
  have hnone : db.addresses.find?
      (fun a => decide (a.UserId = userId ∧ a.AssetId = assetId ∧ a.Amt = amt)) = none := by
    cases h : db.addresses.find?
        (fun a => decide (a.UserId = userId ∧ a.AssetId = assetId ∧ a.Amt = amt)) with
    | none => rfl
    | some a => rw [h] at hfind; simp at hfind
  refine ⟨{ UserId := userId, AssetId := assetId, Amt := amt, Addr := encoded }, ?_, rfl⟩
  rw [List.find?_append, hnone]
  simp

/-- C5, amended: over a store that keeps addresses, when the first of two
successive calls with the same arguments returns a nil error, so does the
second; both return the same text "address: <encoded>"; the second call makes
the lookup call alone and leaves the store unchanged; and the two calls make at
most one `NewAddress` call between them, exactly one when the first lookup
returned no row and none when it returned one. -/
theorem FetchOrCreateAssetAddr_twice (svc : LndhubService) (w : World)
    (userId : Nat) (assetId : String) (amt : Nat)
    (hlaw : KeepsAddresses svc)
    (hfirst : (FetchOrCreateAssetAddr svc w userId assetId amt).1.2 = none) :
    (FetchOrCreateAssetAddr svc (FetchOrCreateAssetAddr svc w userId assetId amt).2
        userId assetId amt).1.2 = none ∧
    (FetchOrCreateAssetAddr svc (FetchOrCreateAssetAddr svc w userId assetId amt).2
        userId assetId amt).1.1
      = (FetchOrCreateAssetAddr svc w userId assetId amt).1.1 ∧
    (∃ encoded, (FetchOrCreateAssetAddr svc w userId assetId amt).1.1 = "address: " ++ encoded) ∧
    newCalls (FetchOrCreateAssetAddr svc w userId assetId amt).2
        (FetchOrCreateAssetAddr svc (FetchOrCreateAssetAddr svc w userId assetId amt).2
          userId assetId amt).2
      = [.FindAddress userId assetId amt] ∧
    (FetchOrCreateAssetAddr svc (FetchOrCreateAssetAddr svc w userId assetId amt).2
        userId assetId amt).2.db
      = (FetchOrCreateAssetAddr svc w userId assetId amt).2.db ∧
    ((svc.FindAddress w.db userId assetId amt).1 = none →
      (newCalls w (FetchOrCreateAssetAddr svc (FetchOrCreateAssetAddr svc w userId assetId amt).2
        userId assetId amt).2).countP Call.isNewAddress = 1) ∧
    ((svc.FindAddress w.db userId assetId amt).1 ≠ none →
      (newCalls w (FetchOrCreateAssetAddr svc (FetchOrCreateAssetAddr svc w userId assetId amt).2
        userId assetId amt).2).countP Call.isNewAddress = 0) := by
  rcases hpair : svc.FindAddress w.db userId assetId amt with ⟨found, ferr⟩
  cases found with
  | some addr =>
    cases ferr with
    | some err =>
      rw [FetchOrCreateAssetAddr_run_lookup_failed svc w userId assetId amt addr err hpair]
        at hfirst
      simp at hfirst
    | none =>
      rw [FetchOrCreateAssetAddr_run_found svc w userId assetId amt addr hpair]
      dsimp only
      rw [FetchOrCreateAssetAddr_run_found svc
        { db := w.db, calls := w.calls ++ [.FindAddress userId assetId amt] }
        userId assetId amt addr hpair]
      refine ⟨rfl, rfl, ⟨_, rfl⟩, ?_, rfl, ?_, ?_⟩
      · simp [newCalls]
      · intro h; simp at h
      · intro _; simp [newCalls, Call.isNewAddress]
  | none =>
    obtain ⟨decoded, newAddr, db1, created, hcreate, hrun⟩ :=
      FetchOrCreateAssetAddr_run_not_found svc w userId assetId amt (by rw [hpair]) hfirst
    obtain ⟨row, hrow, haddr⟩ := hlaw w.db db1 newAddr.Encoded userId assetId amt created
      (by rw [hpair]) hcreate
    rw [hrun]
    dsimp only
    rw [FetchOrCreateAssetAddr_run_found svc
      { db := db1
        calls := w.calls ++ [.FindAddress userId assetId amt,
          .NewAddress { AssetId := decoded, Amt := amt },
          .CreateAddress newAddr.Encoded userId assetId amt] }
      userId assetId amt row hrow]
    refine ⟨rfl, ?_, ⟨_, rfl⟩, ?_, rfl, ?_, ?_⟩
    · simp [haddr]
    · simp [newCalls]
    · intro _; simp [newCalls, Call.isNewAddress, List.countP_cons]
    · intro h; simp at h

/-- Witness of C5, amended: user 3 asks twice for an address for 100 units of
`deadbeef` over an empty store; one address is minted. -/
theorem FetchOrCreateAssetAddr_twice_witness :
    (FetchOrCreateAssetAddr Scenario.svc
        (FetchOrCreateAssetAddr Scenario.svc Scenario.world 3 "deadbeef" 100).2
        3 "deadbeef" 100).1.1
      = (FetchOrCreateAssetAddr Scenario.svc Scenario.world 3 "deadbeef" 100).1.1 ∧
    (newCalls Scenario.world (FetchOrCreateAssetAddr Scenario.svc
        (FetchOrCreateAssetAddr Scenario.svc Scenario.world 3 "deadbeef" 100).2
        3 "deadbeef" 100).2).countP Call.isNewAddress = 1 :=
  have h := FetchOrCreateAssetAddr_twice Scenario.svc Scenario.world 3 "deadbeef" 100
    Scenario.svc_keepsAddresses rfl
  ⟨h.2.1, h.2.2.2.2.2.1 rfl⟩

/-- Counterexample to C5 as stated: over a store that keeps addresses and
already holds an address for the key, both calls return a nil error and the same
text, and no `NewAddress` call is made at all. -/
theorem FetchOrCreateAssetAddr_twice_no_mint :
    KeepsAddresses Scenario.svc ∧
    (FetchOrCreateAssetAddr Scenario.svc Scenario.worldWithAddress 3 "deadbeef" 100).1
      = ("address: taprt1old", none) ∧
    (FetchOrCreateAssetAddr Scenario.svc
        (FetchOrCreateAssetAddr Scenario.svc Scenario.worldWithAddress 3 "deadbeef" 100).2
        3 "deadbeef" 100).1
      = ("address: taprt1old", none) ∧
    (newCalls Scenario.worldWithAddress (FetchOrCreateAssetAddr Scenario.svc
        (FetchOrCreateAssetAddr Scenario.svc Scenario.worldWithAddress 3 "deadbeef" 100).2
        3 "deadbeef" 100).2).countP Call.isNewAddress = 0 ∧
    (newCalls Scenario.worldWithAddress (FetchOrCreateAssetAddr Scenario.svc
        (FetchOrCreateAssetAddr Scenario.svc Scenario.worldWithAddress 3 "deadbeef" 100).2
        3 "deadbeef" 100).2).countP Call.isNewAddress ≠ 1 :=
  ⟨Scenario.svc_keepsAddresses, by decide, by decide, by decide, by decide⟩


/-! ## Theorems: BalanceByAsset -/

theorem mapGet_mapSet_self (m : List (String × Nat)) (k : String) (v : Nat) :
    mapGet (mapSet m k v) k = some v := by
  induction m with
  | nil => simp [mapSet, mapGet]
  | cons p t ih =>
    obtain ⟨k0, v0⟩ := p
    by_cases h : k0 = k
    · simp [mapSet, mapGet, h]
    · simp [mapSet, mapGet, h, ih]

theorem mapGet_mapSet_ne (m : List (String × Nat)) (k : String) (v : Nat) (name : String)
    (hne : name ≠ k) : mapGet (mapSet m k v) name = mapGet m name := by
  induction m with
  | nil => simp [mapSet, mapGet, Ne.symm hne]
  | cons p t ih =>
    obtain ⟨k0, v0⟩ := p
    by_cases h : k0 = k
    · subst h
      simp [mapSet, mapGet, Ne.symm hne]
    · by_cases h2 : k0 = name
      · subst h2
        simp [mapSet, mapGet, h]
      · simp [mapSet, mapGet, h, h2, ih]

theorem mapGet_eq_none_iff (m : List (String × Nat)) (k : String) :
    mapGet m k = none ↔ k ∉ m.map Prod.fst := by
  induction m with
  | nil => simp [mapGet]
  | cons p t ih =>
    obtain ⟨k0, v0⟩ := p
    by_cases h : k0 = k
    · simp [mapGet, h]
    · simp [mapGet, h, ih, Ne.symm h]

theorem keys_mapSet_of_none (m : List (String × Nat)) (k : String) (v : Nat)
    (hnone : mapGet m k = none) : (mapSet m k v).map Prod.fst = m.map Prod.fst ++ [k] := by
  induction m with
  | nil => simp [mapSet]
  | cons p t ih =>
    obtain ⟨k0, v0⟩ := p
    by_cases h : k0 = k
    · simp [mapGet, h] at hnone
    · simp only [mapGet, h, if_false] at hnone
      simp [mapSet, h, ih hnone]

theorem keys_mapSet_of_some (m : List (String × Nat)) (k : String) (v bal : Nat)
    (hsome : mapGet m k = some bal) : (mapSet m k v).map Prod.fst = m.map Prod.fst := by
  induction m with
  | nil => simp [mapGet] at hsome
  | cons p t ih =>
    obtain ⟨k0, v0⟩ := p
    by_cases h : k0 = k
    · simp [mapSet, h]
    · simp only [mapGet, h, if_false] at hsome
      simp [mapSet, h, ih hsome]

theorem sum_mapSet_of_none (m : List (String × Nat)) (k : String) (v : Nat)
    (hnone : mapGet m k = none) :
    ((mapSet m k v).map Prod.snd).sum = (m.map Prod.snd).sum + v := by
  induction m with
  | nil => simp [mapSet]
  | cons p t ih =>
    obtain ⟨k0, v0⟩ := p
    by_cases h : k0 = k
    · simp [mapGet, h] at hnone
    · simp only [mapGet, h, if_false] at hnone
      simp [mapSet, h, ih hnone]
      omega

theorem sum_mapSet_of_some (m : List (String × Nat)) (k : String) (v bal : Nat)
    (hsome : mapGet m k = some bal) :
    ((mapSet m k v).map Prod.snd).sum + bal = (m.map Prod.snd).sum + v := by
  induction m with
  | nil => simp [mapGet] at hsome
  | cons p t ih =>
    obtain ⟨k0, v0⟩ := p
    by_cases h : k0 = k
    · simp only [mapGet, h, if_true, Option.some.injEq] at hsome
      subst hsome
      simp [mapSet, h]
      omega
    · simp only [mapGet, h, if_false] at hsome
      have := ih hsome
      simp [mapSet, h]
      omega

theorem mapGet_of_mem (m : List (String × Nat)) (p : String × Nat)
    (hnodup : (m.map Prod.fst).Nodup) (hp : p ∈ m) : mapGet m p.1 = some p.2 := by
  induction m with
  | nil => simp at hp
  | cons q t ih =>
    obtain ⟨k0, v0⟩ := q
    simp only [List.map_cons, List.nodup_cons] at hnodup
    rcases List.mem_cons.mp hp with rfl | hmem
    · simp [mapGet]
    · have hne : k0 ≠ p.1 := by
        intro h
        exact hnodup.1 (h ▸ List.mem_map_of_mem Prod.fst hmem)
      simp [mapGet, hne, ih hnodup.2 hmem]

theorem aggregate_append (l : List AssetBalance) (b : AssetBalance) :
    aggregate (l ++ [b]) = aggStep (aggregate l) b := by
  simp [aggregate, List.foldl_append]

theorem nameTotal_append (name : String) (l : List AssetBalance) (b : AssetBalance) :
    nameTotal name (l ++ [b])
      = nameTotal name l + (if b.AssetGenesis.Name = name then b.Balance else 0) := by
  by_cases h : b.AssetGenesis.Name = name <;> simp [nameTotal, List.filter_append, h, List.filter_cons]

theorem nameTotal_eq_zero (name : String) (l : List AssetBalance)
    (h : ∀ b ∈ l, b.AssetGenesis.Name ≠ name) : nameTotal name l = 0 := by
  have : l.filter (fun b => decide (b.AssetGenesis.Name = name)) = [] := by
    rw [List.filter_eq_nil_iff]
    intro b hb
    simpa using h b hb
  simp [nameTotal, this]

theorem aggregate_spec (l : List AssetBalance) (hu64 : ∀ b ∈ l, b.Balance < 2 ^ 64) :
    ((aggregate l).map Prod.fst).Nodup ∧
    (∀ name, (∃ b ∈ l, b.AssetGenesis.Name = name) →
      mapGet (aggregate l) name = some (nameTotal name l % 2 ^ 64)) ∧
    (∀ name, (∀ b ∈ l, b.AssetGenesis.Name ≠ name) → mapGet (aggregate l) name = none) ∧
    ((aggregate l).map Prod.snd).sum ≤ balanceTotal l ∧
    ((aggregate l).map Prod.snd).sum % 2 ^ 64 = balanceTotal l % 2 ^ 64 := by
  induction l using List.reverseRecOn with
  | nil => simp [aggregate, mapGet, balanceTotal]
  | append_singleton l b ih =>
    have hl : ∀ x ∈ l, x.Balance < 2 ^ 64 := fun x hx => hu64 x (by simp [hx])
    have hb : b.Balance < 2 ^ 64 := hu64 b (by simp)
    obtain ⟨hnodup, hsome, hnone, hle, hmod⟩ := ih hl
    have htotal : balanceTotal (l ++ [b]) = balanceTotal l + b.Balance := by simp [balanceTotal]
    rw [aggregate_append, htotal]
    cases hget : mapGet (aggregate l) b.AssetGenesis.Name with
    | none =>
      have hstep : aggStep (aggregate l) b
          = mapSet (aggregate l) b.AssetGenesis.Name b.Balance := by
        simp [aggStep, hget]
      have habsent : ∀ x ∈ l, x.AssetGenesis.Name ≠ b.AssetGenesis.Name := by
        intro x hx hname
        have := hsome b.AssetGenesis.Name ⟨x, hx, hname⟩
        rw [hget] at this
        exact Option.noConfusion this
      rw [hstep]
      refine ⟨?_, ?_, ?_, ?_, ?_⟩
      · rw [keys_mapSet_of_none _ _ _ hget]
        rw [List.nodup_append]
        refine ⟨hnodup, List.nodup_singleton _, ?_⟩
        intro a ha hab
        rw [List.mem_singleton] at hab
        subst hab
        exact (mapGet_eq_none_iff _ _).mp hget ha
      · intro name hex
        by_cases hname : name = b.AssetGenesis.Name
        · subst hname
          rw [mapGet_mapSet_self, nameTotal_append, nameTotal_eq_zero _ _ habsent, if_pos rfl,
            Nat.zero_add, Nat.mod_eq_of_lt hb]
        · rw [mapGet_mapSet_ne _ _ _ _ hname, nameTotal_append, if_neg (Ne.symm hname)]
          obtain ⟨x, hx, hxn⟩ := hex
          rcases List.mem_append.mp hx with hx | hx
          · simpa using hsome name ⟨x, hx, hxn⟩
          · rw [List.mem_singleton] at hx
            subst hx
            exact absurd hxn.symm hname
      · intro name hall
        have hname : name ≠ b.AssetGenesis.Name := fun h => hall b (by simp) h.symm
        rw [mapGet_mapSet_ne _ _ _ _ hname]
        exact hnone name fun x hx => hall x (by simp [hx])
      · rw [sum_mapSet_of_none _ _ _ hget]
        omega
      · rw [sum_mapSet_of_none _ _ _ hget, Nat.add_mod, hmod, ← Nat.add_mod]
    | some bal =>
      have hstep : aggStep (aggregate l) b
          = mapSet (aggregate l) b.AssetGenesis.Name ((bal + b.Balance) % 2 ^ 64) := by
        simp [aggStep, hget]
      have hpresent : ∃ x ∈ l, x.AssetGenesis.Name = b.AssetGenesis.Name := by
        by_contra hcon
        have := hnone b.AssetGenesis.Name (fun x hx hname => hcon ⟨x, hx, hname⟩)
        rw [hget] at this
        exact Option.noConfusion this
      have hbal : bal = nameTotal b.AssetGenesis.Name l % 2 ^ 64 := by
        have := hsome _ hpresent
        rw [hget] at this
        exact Option.some.inj this
      have hsum := sum_mapSet_of_some (aggregate l) b.AssetGenesis.Name
        ((bal + b.Balance) % 2 ^ 64) bal hget
      have hmodle : (bal + b.Balance) % 2 ^ 64 ≤ bal + b.Balance := Nat.mod_le _ _
      rw [hstep]
      refine ⟨?_, ?_, ?_, ?_, ?_⟩
      · rw [keys_mapSet_of_some _ _ _ _ hget]
        exact hnodup
      · intro name hex
        by_cases hname : name = b.AssetGenesis.Name
        · subst hname
          rw [mapGet_mapSet_self, nameTotal_append, if_pos rfl, hbal]
          simp
        · rw [mapGet_mapSet_ne _ _ _ _ hname, nameTotal_append, if_neg (Ne.symm hname)]
          obtain ⟨x, hx, hxn⟩ := hex
          rcases List.mem_append.mp hx with hx | hx
          · simpa using hsome name ⟨x, hx, hxn⟩
          · rw [List.mem_singleton] at hx
            subst hx
            exact absurd hxn.symm hname
      · intro name hall
        have hname : name ≠ b.AssetGenesis.Name := fun h => hall b (by simp) h.symm
        rw [mapGet_mapSet_ne _ _ _ _ hname]
        exact hnone name fun x hx => hall x (by simp [hx])
      · omega
      · have h1 : (((mapSet (aggregate l) b.AssetGenesis.Name ((bal + b.Balance) % 2 ^ 64)).map
            Prod.snd).sum + bal) % 2 ^ 64 = (balanceTotal l + b.Balance + bal) % 2 ^ 64 := by
          rw [hsum, Nat.add_mod, Nat.mod_mod, ← Nat.add_mod, Nat.add_mod, hmod, ← Nat.add_mod]
          congr 1
          omega
        exact Nat.ModEq.add_right_cancel' bal h1

theorem foldl_listing (items : List (String × Nat)) (init : String) :
    items.foldl (fun okSuccessMsg p => okSuccessMsg ++ balanceItem p) init
      = init ++ listing items := by
  induction items generalizing init with
  | nil => simp [listing]
  | cons p rest ih => simp [listing, ih, String.append_assoc]


/-- C9: for balances returned without error, each a `uint64`, and a map
ranged over in any order: on the empty list `BalanceByAsset` returns
("balance: 0", false); otherwise it returns true and the text "balances: "
followed by one item "<name> <amount>," for each distinct asset name of the
list, each name once, where the amount is the sum modulo `2 ^ 64` of the
balances carrying that name; the listed amounts add up to the total of the
balances modulo `2 ^ 64`, and exactly when that total is below `2 ^ 64`. -/
theorem BalanceByAsset_listing (svc : LndhubService)
    (rangeOrder : List (String × Nat) → List (String × Nat)) (balances : List AssetBalance)
    (hlist : svc.ListBalances = .ok balances)
    (hrange : ∀ m, (rangeOrder m).Perm m)
    (hu64 : ∀ b ∈ balances, b.Balance < 2 ^ 64) :
    (balances = [] → BalanceByAsset svc rangeOrder = ("balance: 0", false)) ∧
    (balances ≠ [] →
      ∃ items : List (String × Nat),
        BalanceByAsset svc rangeOrder = ("balances: " ++ listing items, true) ∧
        (items.map Prod.fst).Nodup ∧
        (∀ name, name ∈ items.map Prod.fst ↔ ∃ b ∈ balances, b.AssetGenesis.Name = name) ∧
        (∀ p ∈ items, p.2 = nameTotal p.1 balances % 2 ^ 64) ∧
        (items.map Prod.snd).sum % 2 ^ 64 = balanceTotal balances % 2 ^ 64 ∧
        (balanceTotal balances < 2 ^ 64 → (items.map Prod.snd).sum = balanceTotal balances)) := by
  obtain ⟨hnodup, hsome, hnone, hle, hmod⟩ := aggregate_spec balances hu64
  constructor
  · intro hempty
    subst hempty
    simp [BalanceByAsset, hlist, aggregate]
  · intro hne
    have hperm := hrange (aggregate balances)
    have hkeys : ∀ name, name ∈ (aggregate balances).map Prod.fst ↔
        ∃ b ∈ balances, b.AssetGenesis.Name = name := by
      intro name
      constructor
      · intro hmem
        by_contra hcon
        have := hnone name fun b hb hname => hcon ⟨b, hb, hname⟩
        exact (mapGet_eq_none_iff _ _).mp this hmem
      · intro hex
        by_contra hcon
        have h1 := (mapGet_eq_none_iff _ _).mpr hcon
        rw [hsome name hex] at h1
        exact Option.noConfusion h1
    have hlen : (aggregate balances).length ≠ 0 := by
      obtain ⟨b, t, rfl⟩ := List.exists_cons_of_ne_nil hne
      have hmem := (hkeys b.AssetGenesis.Name).mpr ⟨b, by simp, rfl⟩
      intro hzero
      rw [List.length_eq_zero] at hzero
      rw [hzero] at hmem
      simp at hmem
    have hsum : ((rangeOrder (aggregate balances)).map Prod.snd).sum
        = ((aggregate balances).map Prod.snd).sum := (hperm.map Prod.snd).sum_eq
    refine ⟨rangeOrder (aggregate balances), ?_, ?_, ?_, ?_, ?_, ?_⟩
    · simp [BalanceByAsset, hlist, hlen, foldl_listing]
    · exact (hperm.map Prod.fst).nodup_iff.mpr hnodup
    · intro name
      rw [(hperm.map Prod.fst).mem_iff]
      exact hkeys name
    · intro p hp
      have hmem : p ∈ aggregate balances := hperm.mem_iff.mp hp
      have hget := mapGet_of_mem _ p hnodup hmem
      have hex := (hkeys p.1).mp (List.mem_map_of_mem Prod.fst hmem)
      rw [hsome p.1 hex] at hget
      exact (Option.some.inj hget).symm
    · rw [hsum, hmod]
    · intro hsmall
      rw [hsum]
      have h1 : ((aggregate balances).map Prod.snd).sum < 2 ^ 64 := lt_of_le_of_lt hle hsmall
      rw [Nat.mod_eq_of_lt h1, Nat.mod_eq_of_lt hsmall] at hmod
      exact hmod

/-- Witness of C9: two balances named USDT, 5 and `2 ^ 64 - 1`, and one named
BTC, ranged over in the order of insertion. -/
theorem BalanceByAsset_listing_witness :
    BalanceByAsset Scenario.withBalances id = ("balances: USDT 4,BTC 7,", true) ∧
    ∃ items : List (String × Nat),
      BalanceByAsset Scenario.withBalances id = ("balances: " ++ listing items, true) ∧
      (items.map Prod.snd).sum % 2 ^ 64 = balanceTotal Scenario.balances % 2 ^ 64 :=
  have h := (BalanceByAsset_listing Scenario.withBalances id Scenario.balances rfl
    (fun m => List.Perm.refl m) (by decide)).2 (by decide)
  ⟨by decide, h.elim fun items hitems => ⟨items, hitems.1, hitems.2.2.2.2.1⟩⟩

end Tahub
